import Mathlib

/-!
Verification development for the wifi-wave-simulator repository.

This file shallowly embeds the time-stepped field solvers of `src/solver.js`
(classes `WaveSolver2D` and `EMSolver2D`, together with the module-level
helpers `evalSourceSignal`, `buildPmlSigma`, `buildPmlMask`,
`buildMaterialGrids`, `indexFromWorld` and `clamp`) and proves the frozen
claims about them.

Modelling conventions, used throughout:

* JavaScript numbers are modelled as real numbers (`ℝ`).  `Number.isFinite x`
  is identically true in this model, so guards of the form
  `Number.isFinite(v) ? v : d` are modelled as `v`; NaN/Infinity behaviour is
  outside the model.
* `Float32Array`/`Uint8Array` grids are modelled as total functions `ℕ → ℝ`
  (resp. `ℕ → Bool`) over the linear index `i = y*nx + x`; the code only ever
  reads and writes indices `< nx*ny`, so values of the model functions at
  out-of-range indices are irrelevant (loops are translated with explicit
  range guards, leaving out-of-range points unchanged).
* A nullable mask (`this.metalMask`, `this.barrierMask`) is modelled as
  `Option (ℕ → Bool)`; reading through `maskAt` maps `none` to the constant
  `false` mask, which is exactly how the code behaves (`if (mask) ...`).
  A nullable PML profile (width `0`) is modelled by the same formulas, which
  then produce the constant-`0` profile / constant-`false` mask, extensionally
  identical to the `null` behaviour.
* The optional constructor parameters `avgTau`, `cfl` and `pmlWidth` are
  fixed at their defaults `0.35`, `0.45` and `24`: every construction site in
  the repository (`createSolverFromState`) omits them.
* In-place array mutation is modelled by staged pure functions.  Inside one
  stage each cell is written at most once and reads only arrays produced by
  earlier stages (or its own pre-stage value), so the staged functional
  translation computes exactly the values the sequential loops compute.
-/

namespace WifiWave

noncomputable section

open Classical

/-- Math.PI * 2 (the module-level constant `TAU` of solver.js). -/
def TAU : ℝ := Real.pi * 2

/-- The helper `clamp(value, min, max) = Math.min(max, Math.max(min, value))`. -/
def clamp (value lo hi : ℝ) : ℝ := min hi (max lo value)

/-- 2D world-space vector `{x, y}` (the z component is ignored by the 2D solvers). -/
structure Vec2 where
  x : ℝ
  y : ℝ

/-- Requested grid sample counts, as JS numbers (floored by the constructors). -/
structure GridSpec where
  nx : ℝ
  ny : ℝ

/-- Domain geometry: `state.domain` (origin, world size, requested grid). -/
structure Domain where
  origin : Vec2
  worldSize : Vec2
  grid : GridSpec

/-- Solver settings `{speed, attenuation}` from `state.simulation.solver`.
A missing `attenuation` (`solver.attenuation ?? 0`) is modelled as the
value `0`. -/
structure SolverSettings where
  speed : ℝ
  attenuation : ℝ

/-- The `SolverConfig` record passed to both constructors (with the optional
members fixed at their defaults, see the file header). -/
structure SolverConfig where
  domain : Domain
  solver : SolverSettings

/-- Source waveform discriminator (`source.waveform`): "cw", "gaussian", "ricker". -/
inductive Waveform where
  | cw
  | gaussian
  | ricker
deriving DecidableEq

/-- Injection mode discriminator (`source.injection`): "soft" or "hard". -/
inductive Injection where
  | soft
  | hard
deriving DecidableEq

/-- Excited component discriminator (`source.excite`): "hz", "ex", "ey", or
anything else (the rotated-E branch), modelled as `erot`. -/
inductive Excite where
  | hz
  | ex
  | ey
  | erot
deriving DecidableEq

/-- A flattened active source as stored by `EMSolver2D.setSources`. -/
structure EMSource where
  index : ℕ
  amplitude : ℝ
  phase : ℝ
  frequency : ℝ
  waveform : Waveform
  pulseWidth : ℝ
  pulseDelay : ℝ
  injection : Injection
  excite : Excite
  polarizationAngle : ℝ

/-- A flattened active source as stored by `WaveSolver2D.setSources`
(no excite / polarization members). -/
structure WaveSource where
  index : ℕ
  amplitude : ℝ
  phase : ℝ
  frequency : ℝ
  waveform : Waveform
  pulseWidth : ℝ
  pulseDelay : ℝ
  injection : Injection

/-- A user-level source object as consumed by `setSources` (position still in
world coordinates; the `waveform || "cw"`-style defaulting of the optional
members is modelled by the members being present). -/
structure SourceObject where
  active : Bool
  position : Vec2
  amplitude : ℝ
  phase : ℝ
  frequency : ℝ
  waveform : Waveform
  pulseWidth : ℝ
  pulseDelay : ℝ
  injection : Injection
  excite : Excite
  polarizationAngle : ℝ

/-- Running statistics `{time, maxInstantaneous, meanInstantaneous}`. -/
structure SolverStats where
  time : ℝ
  maxInstantaneous : ℝ
  meanInstantaneous : ℝ

/-- Read a nullable mask: `null` behaves as the all-false mask. -/
def maskAt : Option (ℕ → Bool) → ℕ → Bool
  | none, _ => false
  | some m, i => m i

/-- The module-level function `evalSourceSignal(source, t)` of solver.js,
parameterised by the source members it reads. -/
def evalSourceSignal (waveform : Waveform) (frequency phase pulseWidth pulseDelay t : ℝ) : ℝ :=
  let f := max 0 frequency
  let t0 := pulseDelay
  let w := max 1e-6 pulseWidth
  let tau := t - t0
  match waveform with
  | .gaussian => Real.exp (-0.5 * (tau / w) * (tau / w)) * Real.sin (TAU * f * tau + phase)
  | .ricker =>
    let phaseShift := if 0 < f then phase / (TAU * f) else 0
    let tt := tau + phaseShift
    let a := Real.pi * f * tt
    let a2 := a * a
    (1 - 2 * a2) * Real.exp (-a2)
  | .cw => Real.sin (TAU * f * t + phase)

/-- The module-level `indexFromWorld(position, domain, nx, ny)` of solver.js
(also the body of the private method `WaveSolver2D.#indexFromWorld`). -/
def indexFromWorld (position : Vec2) (domain : Domain) (nx ny : ℕ) : ℕ :=
  let xNorm := (position.x - domain.origin.x) / domain.worldSize.x
  let yNorm := (position.y - domain.origin.y) / domain.worldSize.y
  let ix := min ((nx : ℤ) - 1) (max 0 (round (xNorm * ((nx : ℤ) - 1 : ℤ))))
  let iy := min ((ny : ℤ) - 1) (max 0 (round (yNorm * ((ny : ℤ) - 1 : ℤ))))
  Int.toNat (iy * nx + ix)

/-- The module-level `buildPmlSigma(nx, ny, width, dx, dy, waveSpeed)`
(identical to the private method `WaveSolver2D.#buildPmlSigma`).  For
`width = 0` the code returns `null`; the formula below then yields the
constant-zero profile, which is extensionally the `null` behaviour. -/
def buildPmlSigma (nx ny width : ℕ) (dx dy waveSpeed : ℝ) : ℕ → ℝ :=
  fun i =>
    let x := i % nx
    let y := i / nx
    let distX := min x (nx - 1 - x)
    let distY := min y (ny - 1 - y)
    let thickness := (width : ℝ) * min dx dy
    let sigmaMax := (3 + 1) * Real.log (1 / 1e-6) * waveSpeed / (2 * thickness)
    let rampX := if distX < width then ((width : ℝ) - distX) / width else 0
    let rampY := if distY < width then ((width : ℝ) - distY) / width else 0
    sigmaMax * (rampX ^ 3 + rampY ^ 3)

/-- The module-level `buildPmlMask(nx, ny, width)` (identical to the private
method `WaveSolver2D.#buildPmlMask`); `width = 0` yields the all-false mask,
extensionally the `null` behaviour. -/
def buildPmlMask (nx ny width : ℕ) : ℕ → Bool :=
  fun i =>
    let x := i % nx
    let y := i / nx
    decide (min x (nx - 1 - x) < width ∨ min y (ny - 1 - y) < width)

/-- Material record `{preset, epsR, sigma}` attached to a shape. -/
structure MaterialSpec where
  preset : String
  epsR : ℝ
  sigma : ℝ

/-- Shape kind: circle (radius) or rectangle (`size.width`, `size.height`,
`angles.z` in degrees, with `angles?.z ?? 0` modelled by the member being
present).  A rectangle whose `size` member is missing never rasterises
(the code requires `shape.kind === "rectangle" && shape.size`), so it is not
representable here. -/
inductive ShapeKind where
  | circle (radius : ℝ)
  | rectangle (width height angleZ : ℝ)

/-- A user-level obstacle shape. -/
structure ShapeObject where
  kind : ShapeKind
  center : Vec2
  material : Option MaterialSpec

/-- Default material used when `shape.material` is absent
(`{ preset: "drywall", epsR: 2.7, sigma: 0.02 }`). -/
def defaultMaterial : MaterialSpec := ⟨"drywall", 2.7, 0.02⟩

/-- Clamped permittivity assigned by `buildMaterialGrids` for a shape. -/
def epsValOf (shape : ShapeObject) : ℝ :=
  clamp (shape.material.getD defaultMaterial).epsR 1 20

/-- Clamped conductivity assigned by `buildMaterialGrids` for a shape. -/
def sigValOf (shape : ShapeObject) : ℝ :=
  clamp (shape.material.getD defaultMaterial).sigma 0 200

/-- Whether a shape's material preset is "metal". -/
def isMetalOf (shape : ShapeObject) : Bool :=
  (shape.material.getD defaultMaterial).preset == "metal"

/-- The rasterisation test of `buildMaterialGrids`: cell `i` (linear index)
is visited and passes the membership test for `shape`.  This is the exact
per-cell condition of the source loops: the degenerate-size early `continue`,
the clamped index-space bounding box, and the point-in-shape test (squared
distance for circles, inverse rotation for rectangles). -/
def shapeCovers (domain : Domain) (nx ny : ℕ) (shape : ShapeObject) (i : ℕ) : Prop :=
  let dx := domain.worldSize.x / (max 1 (nx - 1) : ℕ)
  let dy := domain.worldSize.y / (max 1 (ny - 1) : ℕ)
  let x := i % nx
  let y := i / nx
  let wx := domain.origin.x + x * dx
  let wy := domain.origin.y + y * dy
  let dxc := wx - shape.center.x
  let dyc := wy - shape.center.y
  match shape.kind with
  | .circle r =>
    let radius := max 0 r
    0 < radius ∧
    min ((nx : ℤ) - 1) (max 0 ⌊(shape.center.x - radius - domain.origin.x) / dx⌋) ≤ (x : ℤ) ∧
    (x : ℤ) ≤ min ((nx : ℤ) - 1) (max 0 ⌈(shape.center.x + radius - domain.origin.x) / dx⌉) ∧
    min ((ny : ℤ) - 1) (max 0 ⌊(shape.center.y - radius - domain.origin.y) / dy⌋) ≤ (y : ℤ) ∧
    (y : ℤ) ≤ min ((ny : ℤ) - 1) (max 0 ⌈(shape.center.y + radius - domain.origin.y) / dy⌉) ∧
    dxc * dxc + dyc * dyc ≤ radius * radius
  | .rectangle w h angleZ =>
    let halfW := w * 0.5
    let halfH := h * 0.5
    let angle := angleZ * Real.pi / 180
    let cosA := Real.cos angle
    let sinA := Real.sin angle
    let radius := Real.sqrt (halfW ^ 2 + halfH ^ 2)
    0 < halfW ∧ 0 < halfH ∧
    min ((nx : ℤ) - 1) (max 0 ⌊(shape.center.x - radius - domain.origin.x) / dx⌋) ≤ (x : ℤ) ∧
    (x : ℤ) ≤ min ((nx : ℤ) - 1) (max 0 ⌈(shape.center.x + radius - domain.origin.x) / dx⌉) ∧
    min ((ny : ℤ) - 1) (max 0 ⌊(shape.center.y - radius - domain.origin.y) / dy⌋) ≤ (y : ℤ) ∧
    (y : ℤ) ≤ min ((ny : ℤ) - 1) (max 0 ⌈(shape.center.y + radius - domain.origin.y) / dy⌉) ∧
    |cosA * dxc + sinA * dyc| ≤ halfW ∧ |(-sinA) * dxc + cosA * dyc| ≤ halfH

/-- The material grid triple produced by `buildMaterialGrids`. -/
structure MaterialGrids where
  epsR : ℕ → ℝ
  sigma : ℕ → ℝ
  metalMask : Option (ℕ → Bool)

/-- One iteration of the shape loop of `buildMaterialGrids`: lazily create
the metal mask on the first metal shape, then overwrite every covered cell
with this shape's clamped material values (and, when the mask exists, its
metal bit). -/
def applyShape (domain : Domain) (nx ny : ℕ) (g : MaterialGrids) (shape : ShapeObject) :
    MaterialGrids :=
  let isMetal := isMetalOf shape
  let mask0 := if isMetal && g.metalMask.isNone then some (fun _ => false) else g.metalMask
  { epsR := fun i => if shapeCovers domain nx ny shape i then epsValOf shape else g.epsR i
    sigma := fun i => if shapeCovers domain nx ny shape i then sigValOf shape else g.sigma i
    metalMask :=
      mask0.map (fun m => fun i => if shapeCovers domain nx ny shape i then isMetal else m i) }

/-- The module-level `buildMaterialGrids(domain, nx, ny, shapes)`: `null` for
an empty shape list, otherwise free-space-initialised grids overwritten by
each shape in list order. -/
def buildMaterialGrids (domain : Domain) (nx ny : ℕ) (shapes : List ShapeObject) :
    Option MaterialGrids :=
  if shapes.isEmpty then none
  else some (shapes.foldl (applyShape domain nx ny) ⟨fun _ => 1, fun _ => 0, none⟩)

/-- The last shape of `shapes` (in list order) whose rasterisation test
covers cell `i`, if any. -/
def lastCoveringShape (domain : Domain) (nx ny : ℕ) (shapes : List ShapeObject) (i : ℕ) :
    Option ShapeObject :=
  shapes.foldl (fun acc s => if shapeCovers domain nx ny s i then some s else acc) none

/-- The state of an `EMSolver2D` instance: construction-time configuration
plus all mutable fields. -/
structure EMSolver2D where
  nx : ℕ
  ny : ℕ
  domain : Domain
  dx : ℝ
  dy : ℝ
  dt : ℝ
  time : ℝ
  avgTau : ℝ
  loss : ℝ
  mu : ℝ
  eps : ℝ
  ex : ℕ → ℝ
  ey : ℕ → ℝ
  hz : ℕ → ℝ
  instantaneous : ℕ → ℝ
  avgPower : ℕ → ℝ
  avgMagnitude : ℕ → ℝ
  sources : List EMSource
  epsRGrid : ℕ → ℝ
  sigmaGrid : ℕ → ℝ
  metalMask : Option (ℕ → Bool)
  accumulator : ℝ
  pmlWidth : ℕ
  pmlSigma : ℕ → ℝ
  pmlMask : ℕ → Bool
  stats : SolverStats

/-- The wave speed used by the `EMSolver2D` constructor:
`clamp(speed, 0.05, 50)` (the `Number.isFinite` guard is identity over `ℝ`). -/
def emWaveSpeed (solver : SolverSettings) : ℝ := clamp solver.speed 0.05 50

/-- The `EMSolver2D` constructor.  The PML width is
`max(0, min(clamp(24,16,32), floor(min(nx,ny)*0.5) - 1))`, written below with
natural-number arithmetic (`clamp(24,16,32) = 24`, and the truncated
subtraction agrees with the JS value because `floor(min(nx,ny)*0.5) ≥ 1`). -/
def EMSolver2D.create (config : SolverConfig) : EMSolver2D :=
  let domain := config.domain
  let nx : ℕ := max 2 (Int.toNat ⌊domain.grid.nx⌋)
  let ny : ℕ := max 2 (Int.toNat ⌊domain.grid.ny⌋)
  let dx := domain.worldSize.x / (max 1 (nx - 1) : ℕ)
  let dy := domain.worldSize.y / (max 1 (ny - 1) : ℕ)
  let minCell := min dx dy
  let waveSpeed := emWaveSpeed config.solver
  let dt := 0.45 * minCell / (waveSpeed * Real.sqrt 2)
  let width : ℕ := min 24 (min nx ny / 2 - 1)
  { nx := nx, ny := ny, domain := domain, dx := dx, dy := dy, dt := dt
    time := 0
    avgTau := max 0.05 0.35
    loss := clamp config.solver.attenuation 0 5
    mu := 1
    eps := 1 / (waveSpeed * waveSpeed)
    ex := fun _ => 0, ey := fun _ => 0, hz := fun _ => 0
    instantaneous := fun _ => 0, avgPower := fun _ => 0, avgMagnitude := fun _ => 0
    sources := []
    epsRGrid := fun _ => 1, sigmaGrid := fun _ => 0
    metalMask := none
    accumulator := 0
    pmlWidth := width
    pmlSigma := buildPmlSigma nx ny width dx dy waveSpeed
    pmlMask := buildPmlMask nx ny width
    stats := ⟨0, 0, 0⟩ }

/-- `EMSolver2D.setSources(sources)`: keep active sources, resolve their
world positions to grid indices once, and apply the member defaults. -/
def EMSolver2D.setSources (S : EMSolver2D) (sources : List SourceObject) : EMSolver2D :=
  { S with
    sources := (sources.filter (fun s => s.active)).map (fun s =>
      { index := indexFromWorld s.position S.domain S.nx S.ny
        amplitude := s.amplitude
        phase := s.phase
        frequency := s.frequency
        waveform := s.waveform
        pulseWidth := s.pulseWidth
        pulseDelay := s.pulseDelay
        injection := s.injection
        excite := s.excite
        polarizationAngle := s.polarizationAngle }) }

/-- `EMSolver2D.setBarrierFromShapes(shapes)`: rebuild the material grids;
a `null` result restores uniform free-space defaults. -/
def EMSolver2D.setBarrierFromShapes (S : EMSolver2D) (shapes : List ShapeObject) : EMSolver2D :=
  match buildMaterialGrids S.domain S.nx S.ny shapes with
  | none =>
    { S with epsRGrid := fun _ => 1, sigmaGrid := fun _ => 0, metalMask := none }
  | some grids =>
    { S with epsRGrid := grids.epsR, sigmaGrid := grids.sigma, metalMask := grids.metalMask }

/-- The intermediate field arrays produced by the stages of
`EMSolver2D.#advance`, in program order: after the metal zeroing (`ex0`,
`ey0`, `hz0`), after the Hz curl update (`hzCurl`), after the unconditional
mid-step Hz source injection (`hzMid`), after the E curl update (`exCurl`,
`eyCurl`), after the authoritative per-component source injection (`exInj`,
`eyInj`, `hzInj`), and after the hard edge zeroing (`exFin`, `eyFin`,
`hzFin`). -/
structure AdvanceTrace where
  ex0 : ℕ → ℝ
  ey0 : ℕ → ℝ
  hz0 : ℕ → ℝ
  hzCurl : ℕ → ℝ
  hzMid : ℕ → ℝ
  exCurl : ℕ → ℝ
  eyCurl : ℕ → ℝ
  exInj : ℕ → ℝ
  eyInj : ℕ → ℝ
  hzInj : ℕ → ℝ
  exFin : ℕ → ℝ
  eyFin : ℕ → ℝ
  hzFin : ℕ → ℝ

/-- Whether linear index `i` lies on the outermost ring of the `nx × ny`
grid (the cells zeroed by the hard edge boundary condition). -/
def onEdge (nx ny i : ℕ) : Prop :=
  i / nx < ny ∧ (i % nx = 0 ∨ i % nx = nx - 1 ∨ i / nx = 0 ∨ i / nx = ny - 1)

/-- One iteration of the unconditional mid-step Hz source-injection loop of
`EMSolver2D.#advance`: add `amplitude * sin(TAU * frequency * t + phase)`
to Hz at the source's cell (no waveform / injection-mode / mask checks). -/
def emMidStep (t : ℝ) (h : ℕ → ℝ) (s : EMSource) : ℕ → ℝ :=
  Function.update h s.index
    (h s.index + s.amplitude * Real.sin (TAU * s.frequency * t + s.phase))

/-- One iteration of the authoritative source-injection loop of
`EMSolver2D.#advance`, acting on the `(ex, ey, hz)` triple: skip sources at
metal or PML cells, otherwise inject `amplitude * evalSourceSignal(source,t)`
into the selected component (hard = overwrite, soft = add). -/
def emInjectStep (S : EMSolver2D) (e : (ℕ → ℝ) × (ℕ → ℝ) × (ℕ → ℝ)) (s : EMSource) :
    (ℕ → ℝ) × (ℕ → ℝ) × (ℕ → ℝ) :=
  if maskAt S.metalMask s.index then e
  else if S.pmlMask s.index then e
  else
    let sv := s.amplitude *
      evalSourceSignal s.waveform s.frequency s.phase s.pulseWidth s.pulseDelay S.time
    match s.excite with
    | .hz =>
      (e.1, e.2.1,
        Function.update e.2.2 s.index (if s.injection = .hard then sv else e.2.2 s.index + sv))
    | .ex =>
      (Function.update e.1 s.index (if s.injection = .hard then sv else e.1 s.index + sv),
        e.2.1, e.2.2)
    | .ey =>
      (e.1,
        Function.update e.2.1 s.index (if s.injection = .hard then sv else e.2.1 s.index + sv),
        e.2.2)
    | .erot =>
      let a := s.polarizationAngle * Real.pi / 180
      let sx := sv * Real.cos a
      let sy := sv * Real.sin a
      (Function.update e.1 s.index (if s.injection = .hard then sx else e.1 s.index + sx),
        Function.update e.2.1 s.index (if s.injection = .hard then sy else e.2.1 s.index + sy),
        e.2.2)

/-- The field-update stages of `EMSolver2D.#advance(dt)` (everything before
the magnitude/statistics pass), as staged pure functions. -/
def EMSolver2D.advanceTrace (S : EMSolver2D) : AdvanceTrace :=
  let nx := S.nx
  let ny := S.ny
  let invDx := 1 / max 1e-9 S.dx
  let invDy := 1 / max 1e-9 S.dy
  let dtOverMu := S.dt / S.mu
  let metal := maskAt S.metalMask
  -- PEC-like metal: zero fields in metal region
  let ex0 := fun i => if metal i then 0 else S.ex i
  let ey0 := fun i => if metal i then 0 else S.ey i
  let hz0 := fun i => if metal i then 0 else S.hz i
  -- Update Hz from curl(E) (loops y < ny-1, x < nx-1, skipping metal cells)
  let hzCurl := fun i =>
    if i % nx < nx - 1 ∧ i / nx < ny - 1 ∧ metal i = false then
      let curlE := (ex0 (i + nx) - ex0 i) * invDy - (ey0 (i + 1) - ey0 i) * invDx
      let epsCell := S.eps * S.epsRGrid i
      let sigmaE := S.pmlSigma i + S.sigmaGrid i + S.loss
      let sigmaM := sigmaE * (S.mu / epsCell)
      let denom := 1 + sigmaM * S.dt / (2 * S.mu)
      ((1 - sigmaM * S.dt / (2 * S.mu)) / denom) * hz0 i + (dtOverMu / denom) * curlE
    else hz0 i
  -- Unconditional mid-step source injection into Hz
  let hzMid := S.sources.foldl (emMidStep S.time) hzCurl
  -- Update Ex, Ey from curl(H) (loops 1 ≤ y < ny-1, 1 ≤ x < nx-1, skipping metal)
  let exCurl := fun i =>
    if 1 ≤ i % nx ∧ i % nx < nx - 1 ∧ 1 ≤ i / nx ∧ i / nx < ny - 1 ∧ metal i = false then
      let epsCell := S.eps * S.epsRGrid i
      let sigmaE := S.pmlSigma i + S.sigmaGrid i + S.loss
      let denom := 1 + sigmaE * S.dt / (2 * epsCell)
      ((1 - sigmaE * S.dt / (2 * epsCell)) / denom) * ex0 i +
        ((S.dt / epsCell) / denom) * ((hzMid i - hzMid (i - nx)) * invDy)
    else ex0 i
  let eyCurl := fun i =>
    if 1 ≤ i % nx ∧ i % nx < nx - 1 ∧ 1 ≤ i / nx ∧ i / nx < ny - 1 ∧ metal i = false then
      let epsCell := S.eps * S.epsRGrid i
      let sigmaE := S.pmlSigma i + S.sigmaGrid i + S.loss
      let denom := 1 + sigmaE * S.dt / (2 * epsCell)
      ((1 - sigmaE * S.dt / (2 * epsCell)) / denom) * ey0 i -
        ((S.dt / epsCell) / denom) * ((hzMid i - hzMid (i - 1)) * invDx)
    else ey0 i
  -- Authoritative source injection (skips metal / PML cells)
  let inj := S.sources.foldl (emInjectStep S) (exCurl, eyCurl, hzMid)
  -- Hard boundary: zero all components on the outermost ring
  let exFin := fun i => if onEdge nx ny i then 0 else inj.1 i
  let eyFin := fun i => if onEdge nx ny i then 0 else inj.2.1 i
  let hzFin := fun i => if onEdge nx ny i then 0 else inj.2.2 i
  ⟨ex0, ey0, hz0, hzCurl, hzMid, exCurl, eyCurl, inj.1, inj.2.1, inj.2.2, exFin, eyFin, hzFin⟩

/-- One fixed-size advance `EMSolver2D.#advance(dt)`: the staged field
updates followed by the magnitude/statistics pass. -/
def EMSolver2D.advance (S : EMSolver2D) : EMSolver2D :=
  let T := S.advanceTrace
  let n := S.nx * S.ny
  let alpha := min 1 (S.dt / S.avgTau)
  let mag := fun i => Real.sqrt (T.exFin i * T.exFin i + T.eyFin i * T.eyFin i)
  let avgPower' := fun i =>
    if i < n then
      if S.pmlMask i then 0 else S.avgPower i + alpha * (mag i * mag i - S.avgPower i)
    else S.avgPower i
  let avgMagnitude' := fun i =>
    if i < n then
      if S.pmlMask i then 0
      else Real.sqrt (S.avgPower i + alpha * (mag i * mag i - S.avgPower i))
    else S.avgMagnitude i
  let instantaneous' := fun i =>
    if i < n then (if S.pmlMask i then 0 else mag i) else S.instantaneous i
  let sum := ∑ i ∈ Finset.range n, (if S.pmlMask i then 0 else mag i)
  let maxv := (Finset.range n).fold max 0 (fun i => if S.pmlMask i then 0 else mag i)
  let time' := S.time + S.dt
  { S with
    ex := T.exFin, ey := T.eyFin, hz := T.hzFin
    instantaneous := instantaneous'
    avgPower := avgPower'
    avgMagnitude := avgMagnitude'
    time := time'
    stats := ⟨time', maxv, sum / (n : ℝ)⟩ }

/-- The fixed-step integration loop shared verbatim by `EMSolver2D.step` and
`WaveSolver2D.step`: while the accumulator holds at least `dt` and fewer than
`fuel` sub-steps have run, perform one advance and subtract `dt`.  Returns
the remaining accumulator, the final state, and the number of sub-steps. -/
def runFixedSteps {α : Type} (dt : ℝ) (adv : α → α) : ℕ → ℝ → α → ℝ × α × ℕ
  | 0, acc, st => (acc, st, 0)
  | fuel + 1, acc, st =>
    if dt ≤ acc then
      let r := runFixedSteps dt adv fuel (acc - dt) (adv st)
      (r.1, r.2.1, r.2.2 + 1)
    else (acc, st, 0)

/-- `EMSolver2D.step(deltaSeconds)` together with the number of fixed
advances it performed.  Non-positive elapsed time is a no-op
(`Number.isFinite` is identically true over `ℝ`); otherwise at most
`maxSubstepsPerFrame = 8` advances run and the accumulator is clamped to
`dt * 8` when the sub-step cap was hit with at least one `dt` left. -/
def EMSolver2D.stepResult (S : EMSolver2D) (deltaSeconds : ℝ) : EMSolver2D × ℕ :=
  if 0 < deltaSeconds then
    let r := runFixedSteps S.dt EMSolver2D.advance 8 (S.accumulator + deltaSeconds) S
    let S2 := { r.2.1 with accumulator := r.1 }
    if S.dt ≤ S2.accumulator ∧ 8 ≤ r.2.2 then
      if S.dt * 8 < S2.accumulator then ({ S2 with accumulator := S.dt * 8 }, r.2.2)
      else (S2, r.2.2)
    else (S2, r.2.2)
  else (S, 0)

/-- `EMSolver2D.step(deltaSeconds)` (the state part of `stepResult`). -/
def EMSolver2D.step (S : EMSolver2D) (deltaSeconds : ℝ) : EMSolver2D :=
  (S.stepResult deltaSeconds).1

/-- `EMSolver2D.reset()`: zero all field/output arrays, the clock, the
accumulator and the statistics. -/
def EMSolver2D.reset (S : EMSolver2D) : EMSolver2D :=
  { S with
    time := 0
    accumulator := 0
    stats := ⟨0, 0, 0⟩
    ex := fun _ => 0, ey := fun _ => 0, hz := fun _ => 0
    instantaneous := fun _ => 0, avgPower := fun _ => 0, avgMagnitude := fun _ => 0 }

/-- `EMSolver2D.getStats()`. -/
def EMSolver2D.getStats (S : EMSolver2D) : SolverStats := S.stats

/-- The state of a `WaveSolver2D` instance (the simplified scalar-wave
variant). -/
structure WaveSolver2D where
  nx : ℕ
  ny : ℕ
  domain : Domain
  dx : ℝ
  dy : ℝ
  dt : ℝ
  time : ℝ
  avgTau : ℝ
  loss : ℝ
  coeffX : ℝ
  coeffY : ℝ
  prev : ℕ → ℝ
  curr : ℕ → ℝ
  next : ℕ → ℝ
  instantaneous : ℕ → ℝ
  avgPower : ℕ → ℝ
  avgMagnitude : ℕ → ℝ
  sources : List WaveSource
  barrierMask : Option (ℕ → Bool)
  accumulator : ℝ
  pmlWidth : ℕ
  pmlSigma : ℕ → ℝ
  pmlMask : ℕ → Bool
  stats : SolverStats

/-- The wave speed used by the `WaveSolver2D` constructor:
`clamp(speed, 0.05, 20)`. -/
def waveWaveSpeed (solver : SolverSettings) : ℝ := clamp solver.speed 0.05 20

/-- The `WaveSolver2D` constructor (same shape as `EMSolver2D.create`, with
speed clamp `[0.05, 20]`, attenuation clamp `[0, 2]`, and the
`coeffX/coeffY` stencil coefficients). -/
def WaveSolver2D.create (config : SolverConfig) : WaveSolver2D :=
  let domain := config.domain
  let nx : ℕ := max 2 (Int.toNat ⌊domain.grid.nx⌋)
  let ny : ℕ := max 2 (Int.toNat ⌊domain.grid.ny⌋)
  let dx := domain.worldSize.x / (max 1 (nx - 1) : ℕ)
  let dy := domain.worldSize.y / (max 1 (ny - 1) : ℕ)
  let minCell := min dx dy
  let waveSpeed := waveWaveSpeed config.solver
  let dt := 0.45 * minCell / (waveSpeed * Real.sqrt 2)
  let width : ℕ := min 24 (min nx ny / 2 - 1)
  let c2 := waveSpeed * waveSpeed
  { nx := nx, ny := ny, domain := domain, dx := dx, dy := dy, dt := dt
    time := 0
    avgTau := max 0.05 0.35
    loss := clamp config.solver.attenuation 0 2
    coeffX := c2 * dt * dt * (1 / (dx * dx))
    coeffY := c2 * dt * dt * (1 / (dy * dy))
    prev := fun _ => 0, curr := fun _ => 0, next := fun _ => 0
    instantaneous := fun _ => 0, avgPower := fun _ => 0, avgMagnitude := fun _ => 0
    sources := []
    barrierMask := none
    accumulator := 0
    pmlWidth := width
    pmlSigma := buildPmlSigma nx ny width dx dy waveSpeed
    pmlMask := buildPmlMask nx ny width
    stats := ⟨0, 0, 0⟩ }

/-- One fixed-size advance `WaveSolver2D.#advance(dt)`: pre-zero the edge
ring and barrier cells of `curr`/`prev`, apply the leapfrog stencil with
clamped neighbour indices and the semi-implicit damping branch, inject the
sources into `next`, re-zero barrier and edge cells of `next`, rotate the
three buffers, and run the magnitude/statistics pass on the new `curr`. -/
def WaveSolver2D.advance (S : WaveSolver2D) : WaveSolver2D :=
  let nx := S.nx
  let ny := S.ny
  let barrier := maskAt S.barrierMask
  -- zero curr/prev on the edge ring (only when nx > 1 and ny > 1), then on barrier cells
  let edgeZero : (ℕ → ℝ) → ℕ → ℝ := fun f i =>
    if 1 < nx ∧ 1 < ny ∧ onEdge nx ny i then 0 else f i
  let curr0 := fun i => if barrier i then 0 else edgeZero S.curr i
  let prev0 := fun i => if barrier i then 0 else edgeZero S.prev i
  -- leapfrog stencil over the full grid with edge-clamped neighbours
  let next1 := fun i =>
    if i / nx < ny then
      let x := i % nx
      let y := i / nx
      let leftIdx := if x = 0 then i else i - 1
      let rightIdx := if x = nx - 1 then i else i + 1
      let upIdx := if y = 0 then i else i - nx
      let downIdx := if y = ny - 1 then i else i + nx
      let laplacian :=
        (curr0 leftIdx - 2 * curr0 i + curr0 rightIdx) * S.coeffX +
          (curr0 upIdx - 2 * curr0 i + curr0 downIdx) * S.coeffY
      let sigmaVal := S.pmlSigma i + S.loss
      if 0 < sigmaVal then
        let sdt := sigmaVal * S.dt * 0.5
        (2 * curr0 i - prev0 i * (1 - sdt) + laplacian) / (1 + sdt)
      else 2 * curr0 i - prev0 i + laplacian
    else S.next i
  -- source injection (hard overwrites, soft adds)
  let next2 := S.sources.foldl (fun f s =>
    let signal := s.amplitude *
      evalSourceSignal s.waveform s.frequency s.phase s.pulseWidth s.pulseDelay S.time
    if s.injection = .hard then Function.update f s.index signal
    else Function.update f s.index (f s.index + signal)) next1
  -- re-zero barrier cells, then the edge ring, of next
  let next3 := fun i => if barrier i then 0 else next2 i
  let next4 := fun i => if 1 < nx ∧ 1 < ny ∧ onEdge nx ny i then 0 else next3 i
  -- buffer rotation: prev ← curr, curr ← next, next ← prev
  let field := next4
  let n := nx * ny
  let alpha := min 1 (S.dt / S.avgTau)
  let avgPower' := fun i =>
    if i < n then
      if S.pmlMask i then 0
      else S.avgPower i + alpha * (field i * field i - S.avgPower i)
    else S.avgPower i
  let avgMagnitude' := fun i =>
    if i < n then
      if S.pmlMask i then 0
      else Real.sqrt (S.avgPower i + alpha * (field i * field i - S.avgPower i))
    else S.avgMagnitude i
  let instantaneous' := fun i =>
    if i < n then (if S.pmlMask i then 0 else |field i|) else S.instantaneous i
  let sum := ∑ i ∈ Finset.range n, (if S.pmlMask i then 0 else |field i|)
  let maxv := (Finset.range n).fold max 0 (fun i => if S.pmlMask i then 0 else |field i|)
  let time' := S.time + S.dt
  { S with
    prev := curr0, curr := next4, next := prev0
    instantaneous := instantaneous'
    avgPower := avgPower'
    avgMagnitude := avgMagnitude'
    time := time'
    stats := ⟨time', maxv, sum / (n : ℝ)⟩ }

/-- `WaveSolver2D.step(deltaSeconds)` together with the number of fixed
advances it performed (same integration loop as the EM solver). -/
def WaveSolver2D.stepResult (S : WaveSolver2D) (deltaSeconds : ℝ) : WaveSolver2D × ℕ :=
  if 0 < deltaSeconds then
    let r := runFixedSteps S.dt WaveSolver2D.advance 8 (S.accumulator + deltaSeconds) S
    let S2 := { r.2.1 with accumulator := r.1 }
    if S.dt ≤ S2.accumulator ∧ 8 ≤ r.2.2 then
      if S.dt * 8 < S2.accumulator then ({ S2 with accumulator := S.dt * 8 }, r.2.2)
      else (S2, r.2.2)
    else (S2, r.2.2)
  else (S, 0)

/-- `WaveSolver2D.step(deltaSeconds)` (the state part of `stepResult`). -/
def WaveSolver2D.step (S : WaveSolver2D) (deltaSeconds : ℝ) : WaveSolver2D :=
  (S.stepResult deltaSeconds).1

/-- `WaveSolver2D.reset()`. -/
def WaveSolver2D.reset (S : WaveSolver2D) : WaveSolver2D :=
  { S with
    prev := fun _ => 0, curr := fun _ => 0, next := fun _ => 0
    instantaneous := fun _ => 0, avgPower := fun _ => 0, avgMagnitude := fun _ => 0
    time := 0
    accumulator := 0
    stats := ⟨0, 0, 0⟩ }

/-- The mean claimed by the specification for `getStats().meanInstantaneous`
(comparison definition, following the spec's words for claim C5): the sum of
`sqrt(Ex² + Ey²)` over all cells outside the PML mask, divided by the number
of non-PML cells. -/
def specMeanNonPml (S : EMSolver2D) : ℝ :=
  (∑ i ∈ (Finset.range (S.nx * S.ny)).filter (fun i => S.pmlMask i = false),
    Real.sqrt (S.ex i ^ 2 + S.ey i ^ 2)) /
    (((Finset.range (S.nx * S.ny)).filter (fun i => S.pmlMask i = false)).card : ℝ)

/-! ### Concrete configurations and states used by witnesses and counterexamples -/

/-- A 4×4 grid over a 3×3 world (so `dx = dy = 1`), speed 1, no attenuation.
The PML width is `min 24 (4/2 - 1) = 1`, so the PML band is exactly the edge
ring and the four interior cells (indices 5, 6, 9, 10) are PML-free. -/
def cfgA : SolverConfig := ⟨⟨⟨0, 0⟩, ⟨3, 3⟩, ⟨4, 4⟩⟩, ⟨1, 0⟩⟩

/-- A 6×6 grid over a 5×5 world (so `dx = dy = 1`), speed 1, no attenuation.
The PML width is `min 24 (6/2 - 1) = 2`, so cell `(1,1)` (index 7) is a
non-edge cell inside the PML band. -/
def cfgB : SolverConfig := ⟨⟨⟨0, 0⟩, ⟨5, 5⟩, ⟨6, 6⟩⟩, ⟨1, 0⟩⟩

/-- A CW source with amplitude 1, phase π/2 and frequency 0 (so its signal
is constantly 1), soft-injecting into Hz at cell (1,1) of the 4×4 grid
(linear index 5, interior and PML-free). -/
def src5 : EMSource := ⟨5, 1, Real.pi / 2, 0, .cw, 0.4, 0, .soft, .hz, 0⟩

/-- The same source with hard injection. -/
def src5h : EMSource := ⟨5, 1, Real.pi / 2, 0, .cw, 0.4, 0, .hard, .hz, 0⟩

/-- A freshly built 4×4 EM solver with the single soft CW Hz source `src5`. -/
def S5 : EMSolver2D := { EMSolver2D.create cfgA with sources := [src5] }

/-- A freshly built 4×4 EM solver with the single hard CW Hz source `src5h`. -/
def S2wit : EMSolver2D := { EMSolver2D.create cfgA with sources := [src5h] }

/-- A CW source (amplitude 1, phase π/2, frequency 0, soft, Hz) at cell
(1,1) of the 6×6 grid (linear index 7): a non-edge cell inside the PML band. -/
def src7 : EMSource := ⟨7, 1, Real.pi / 2, 0, .cw, 0.4, 0, .soft, .hz, 0⟩

/-- A freshly built 6×6 EM solver with the single PML-band source `src7`. -/
def S3src : EMSolver2D := { EMSolver2D.create cfgB with sources := [src7] }

/-- A freshly built 6×6 EM solver with no sources. -/
def S3emp : EMSolver2D := EMSolver2D.create cfgB

/-- A metal circle of radius 0.5 centred on the grid point (2,2) of the 6×6
grid: it rasterises to exactly the single cell (2,2) (linear index 14). -/
def metalCircle : ShapeObject := ⟨.circle 0.5, ⟨2, 2⟩, some ⟨"metal", 1, 0⟩⟩

/-- The 6×6 EM solver with the metal circle rasterised (no sources). -/
def S6base : EMSolver2D := (EMSolver2D.create cfgB).setBarrierFromShapes [metalCircle]

/-- A CW source (amplitude 1, phase π/2, frequency 0, soft, Hz) located at
the metal cell (2,2) (linear index 14). -/
def src14 : EMSource := ⟨14, 1, Real.pi / 2, 0, .cw, 0.4, 0, .soft, .hz, 0⟩

/-- The 6×6 EM solver with the metal circle and a source inside the metal. -/
def S6cex : EMSolver2D := { S6base with sources := [src14] }

/-- A gaussian hard Ex-exciting source at the PML-band cell 7, used to
witness that the mid-step Hz injection ignores waveform, injection mode,
excited component and the PML/metal masks. -/
def srcG : EMSource := ⟨7, 2, 0, 3, .gaussian, 0.4, 0, .hard, .ex, 0⟩

/-- The 6×6 EM solver with the single gaussian source `srcG`. -/
def S4wit : EMSolver2D := { EMSolver2D.create cfgB with sources := [srcG] }

/-! ### General-purpose lemmas -/

lemma cast_max_one_pos (n : ℕ) : (0 : ℝ) < ((max 1 n : ℕ) : ℝ) :=
  Nat.cast_pos.mpr (Nat.lt_of_lt_of_le Nat.zero_lt_one (le_max_left 1 n))

lemma clamp_pos {v lo hi : ℝ} (hlo : 0 < lo) (hlohi : lo ≤ hi) : 0 < clamp v lo hi :=
  lt_min (lt_of_lt_of_le hlo hlohi) (lt_of_lt_of_le hlo (le_max_left lo v))

/-- Core arithmetic of the CFL stability invariant: with
`dt = 0.45·min(dx,dy)/(ws·√2)`, the Courant number is at most `0.45`. -/
lemma cfl_bound {dx dy ws : ℝ} (hdx : 0 < dx) (hdy : 0 < dy) (hws : 0 < ws) :
    ws * (0.45 * min dx dy / (ws * Real.sqrt 2)) * Real.sqrt (1 / dx ^ 2 + 1 / dy ^ 2) ≤ 0.45 := by
  have h2 : (0 : ℝ) < Real.sqrt 2 := Real.sqrt_pos.mpr (by norm_num)
  have hm : 0 < min dx dy := lt_min hdx hdy
  have hsum : 1 / dx ^ 2 + 1 / dy ^ 2 ≤ 2 / min dx dy ^ 2 := by
    have h1 : 1 / dx ^ 2 ≤ 1 / min dx dy ^ 2 :=
      one_div_le_one_div_of_le (by positivity) (pow_le_pow_left₀ hm.le (min_le_left _ _) 2)
    have h1' : 1 / dy ^ 2 ≤ 1 / min dx dy ^ 2 :=
      one_div_le_one_div_of_le (by positivity) (pow_le_pow_left₀ hm.le (min_le_right _ _) 2)
    calc 1 / dx ^ 2 + 1 / dy ^ 2 ≤ 1 / min dx dy ^ 2 + 1 / min dx dy ^ 2 := add_le_add h1 h1'
    _ = 2 / min dx dy ^ 2 := by ring
  have hsq : Real.sqrt (1 / dx ^ 2 + 1 / dy ^ 2) ≤ Real.sqrt 2 / min dx dy := by
    have h := Real.sqrt_le_sqrt hsum
    rwa [Real.sqrt_div (by norm_num) (min dx dy ^ 2), Real.sqrt_sq hm.le] at h
  have hfac : 0 ≤ ws * (0.45 * min dx dy / (ws * Real.sqrt 2)) := by positivity
  calc ws * (0.45 * min dx dy / (ws * Real.sqrt 2)) * Real.sqrt (1 / dx ^ 2 + 1 / dy ^ 2)
      ≤ ws * (0.45 * min dx dy / (ws * Real.sqrt 2)) * (Real.sqrt 2 / min dx dy) :=
        mul_le_mul_of_nonneg_left hsq hfac
  _ = 0.45 := by field_simp; ring

lemma runFixedSteps_count_le {α : Type} (dt : ℝ) (adv : α → α) (fuel : ℕ) (acc : ℝ) (st : α) :
    (runFixedSteps dt adv fuel acc st).2.2 ≤ fuel := by
  induction fuel generalizing acc st with
  | zero => simp [runFixedSteps]
  | succ n ih =>
    simp only [runFixedSteps]
    split
    · exact Nat.succ_le_succ (ih _ _)
    · simp

lemma runFixedSteps_acc {α : Type} (dt : ℝ) (adv : α → α) (fuel : ℕ) (acc : ℝ) (st : α) :
    (runFixedSteps dt adv fuel acc st).1 =
      acc - ((runFixedSteps dt adv fuel acc st).2.2 : ℝ) * dt := by
  induction fuel generalizing acc st with
  | zero => simp [runFixedSteps]
  | succ n ih =>
    simp only [runFixedSteps]
    split
    · rw [ih]
      push_cast
      ring
    · simp

lemma runFixedSteps_stop_lt {α : Type} (dt : ℝ) (adv : α → α) (fuel : ℕ) (acc : ℝ) (st : α)
    (h : (runFixedSteps dt adv fuel acc st).2.2 < fuel) :
    (runFixedSteps dt adv fuel acc st).1 < dt := by
  induction fuel generalizing acc st with
  | zero => exact absurd h (Nat.not_lt_zero _)
  | succ n ih =>
    by_cases hc : dt ≤ acc
    · simp only [runFixedSteps, if_pos hc] at h ⊢
      exact ih _ _ (Nat.lt_of_succ_lt_succ h)
    · simp only [runFixedSteps, if_neg hc]
      exact lt_of_not_le hc

/-- The post-loop accumulator clamp of `step`, as a pure arithmetic fact:
the clamped value never exceeds `dt * 8`, and it either equals the loop-exit
value (one `dt` consumed per advance) or the cap was hit and the value was
clamped to exactly `dt * 8`. -/
lemma clamp_spec (dt a : ℝ) (n : ℕ) (hdt : 0 < dt) (hn : n ≤ 8) (hlt : n < 8 → a < dt) :
    (if dt ≤ a ∧ 8 ≤ n then if dt * 8 < a then dt * 8 else a else a) ≤ dt * 8 ∧
    ((if dt ≤ a ∧ 8 ≤ n then if dt * 8 < a then dt * 8 else a else a) = a ∨
      (n = 8 ∧ (if dt ≤ a ∧ 8 ≤ n then if dt * 8 < a then dt * 8 else a else a) = dt * 8)) := by
  have h8 : dt ≤ dt * 8 := by nlinarith
  by_cases h1 : dt ≤ a ∧ 8 ≤ n
  · have hn8 : n = 8 := le_antisymm hn h1.2
    by_cases h2 : dt * 8 < a
    · simp only [if_pos h1, if_pos h2]
      exact ⟨le_refl _, Or.inr ⟨hn8, by trivial⟩⟩
    · simp only [if_pos h1, if_neg h2]
      exact ⟨le_of_not_lt h2, Or.inl (by trivial)⟩
  · have ha : a < dt := by
      rcases not_and_or.mp h1 with h | h
      · exact lt_of_not_le h
      · exact hlt (lt_of_not_le h)
    simp only [if_neg h1]
    exact ⟨le_trans ha.le h8, Or.inl (by trivial)⟩

/-! ### Stage-equation lemmas for `EMSolver2D.advanceTrace` / `advance` -/

lemma advanceTrace_ex0 (S : EMSolver2D) (i : ℕ) :
    S.advanceTrace.ex0 i = if maskAt S.metalMask i then 0 else S.ex i := rfl

lemma advanceTrace_ey0 (S : EMSolver2D) (i : ℕ) :
    S.advanceTrace.ey0 i = if maskAt S.metalMask i then 0 else S.ey i := rfl

lemma advanceTrace_hz0 (S : EMSolver2D) (i : ℕ) :
    S.advanceTrace.hz0 i = if maskAt S.metalMask i then 0 else S.hz i := rfl

lemma advanceTrace_hzCurl (S : EMSolver2D) (i : ℕ) :
    S.advanceTrace.hzCurl i =
      if i % S.nx < S.nx - 1 ∧ i / S.nx < S.ny - 1 ∧ maskAt S.metalMask i = false then
        ((1 - (S.pmlSigma i + S.sigmaGrid i + S.loss) * (S.mu / (S.eps * S.epsRGrid i)) * S.dt /
              (2 * S.mu)) /
            (1 + (S.pmlSigma i + S.sigmaGrid i + S.loss) * (S.mu / (S.eps * S.epsRGrid i)) * S.dt /
              (2 * S.mu))) * S.advanceTrace.hz0 i +
          ((S.dt / S.mu) /
            (1 + (S.pmlSigma i + S.sigmaGrid i + S.loss) * (S.mu / (S.eps * S.epsRGrid i)) * S.dt /
              (2 * S.mu))) *
            ((S.advanceTrace.ex0 (i + S.nx) - S.advanceTrace.ex0 i) * (1 / max 1e-9 S.dy) -
              (S.advanceTrace.ey0 (i + 1) - S.advanceTrace.ey0 i) * (1 / max 1e-9 S.dx))
      else S.advanceTrace.hz0 i := rfl

lemma advanceTrace_hzMid (S : EMSolver2D) :
    S.advanceTrace.hzMid = S.sources.foldl (emMidStep S.time) S.advanceTrace.hzCurl := rfl

lemma advanceTrace_exCurl (S : EMSolver2D) (i : ℕ) :
    S.advanceTrace.exCurl i =
      if 1 ≤ i % S.nx ∧ i % S.nx < S.nx - 1 ∧ 1 ≤ i / S.nx ∧ i / S.nx < S.ny - 1 ∧
          maskAt S.metalMask i = false then
        ((1 - (S.pmlSigma i + S.sigmaGrid i + S.loss) * S.dt / (2 * (S.eps * S.epsRGrid i))) /
            (1 + (S.pmlSigma i + S.sigmaGrid i + S.loss) * S.dt / (2 * (S.eps * S.epsRGrid i)))) *
            S.advanceTrace.ex0 i +
          ((S.dt / (S.eps * S.epsRGrid i)) /
            (1 + (S.pmlSigma i + S.sigmaGrid i + S.loss) * S.dt / (2 * (S.eps * S.epsRGrid i)))) *
            ((S.advanceTrace.hzMid i - S.advanceTrace.hzMid (i - S.nx)) * (1 / max 1e-9 S.dy))
      else S.advanceTrace.ex0 i := rfl

lemma advanceTrace_eyCurl (S : EMSolver2D) (i : ℕ) :
    S.advanceTrace.eyCurl i =
      if 1 ≤ i % S.nx ∧ i % S.nx < S.nx - 1 ∧ 1 ≤ i / S.nx ∧ i / S.nx < S.ny - 1 ∧
          maskAt S.metalMask i = false then
        ((1 - (S.pmlSigma i + S.sigmaGrid i + S.loss) * S.dt / (2 * (S.eps * S.epsRGrid i))) /
            (1 + (S.pmlSigma i + S.sigmaGrid i + S.loss) * S.dt / (2 * (S.eps * S.epsRGrid i)))) *
            S.advanceTrace.ey0 i -
          ((S.dt / (S.eps * S.epsRGrid i)) /
            (1 + (S.pmlSigma i + S.sigmaGrid i + S.loss) * S.dt / (2 * (S.eps * S.epsRGrid i)))) *
            ((S.advanceTrace.hzMid i - S.advanceTrace.hzMid (i - 1)) * (1 / max 1e-9 S.dx))
      else S.advanceTrace.ey0 i := rfl

lemma advanceTrace_inj (S : EMSolver2D) :
    (S.advanceTrace.exInj, S.advanceTrace.eyInj, S.advanceTrace.hzInj) =
      S.sources.foldl (emInjectStep S)
        (S.advanceTrace.exCurl, S.advanceTrace.eyCurl, S.advanceTrace.hzMid) := rfl

lemma advanceTrace_exFin (S : EMSolver2D) (i : ℕ) :
    S.advanceTrace.exFin i = if onEdge S.nx S.ny i then 0 else S.advanceTrace.exInj i := rfl

lemma advanceTrace_eyFin (S : EMSolver2D) (i : ℕ) :
    S.advanceTrace.eyFin i = if onEdge S.nx S.ny i then 0 else S.advanceTrace.eyInj i := rfl

lemma advanceTrace_hzFin (S : EMSolver2D) (i : ℕ) :
    S.advanceTrace.hzFin i = if onEdge S.nx S.ny i then 0 else S.advanceTrace.hzInj i := rfl

lemma advance_ex (S : EMSolver2D) : S.advance.ex = S.advanceTrace.exFin := rfl

lemma advance_ey (S : EMSolver2D) : S.advance.ey = S.advanceTrace.eyFin := rfl

lemma advance_hz (S : EMSolver2D) : S.advance.hz = S.advanceTrace.hzFin := rfl

lemma advance_pmlMask (S : EMSolver2D) : S.advance.pmlMask = S.pmlMask := rfl

lemma advance_nxny (S : EMSolver2D) : S.advance.nx = S.nx ∧ S.advance.ny = S.ny := ⟨rfl, rfl⟩

lemma advance_instantaneous (S : EMSolver2D) (i : ℕ) :
    S.advance.instantaneous i =
      if i < S.nx * S.ny then
        if S.pmlMask i then 0
        else Real.sqrt (S.advanceTrace.exFin i * S.advanceTrace.exFin i +
          S.advanceTrace.eyFin i * S.advanceTrace.eyFin i)
      else S.instantaneous i := rfl

lemma advance_mean (S : EMSolver2D) :
    S.advance.stats.meanInstantaneous =
      (∑ i ∈ Finset.range (S.nx * S.ny),
        (if S.pmlMask i then 0
          else Real.sqrt (S.advanceTrace.exFin i * S.advanceTrace.exFin i +
            S.advanceTrace.eyFin i * S.advanceTrace.eyFin i))) / ((S.nx * S.ny : ℕ) : ℝ) := rfl

/-! ### Characterisations of the two source-injection folds -/

/-- The unconditional mid-step Hz injection adds, at every cell, the sum of
`amplitude * sin(TAU * frequency * t + phase)` over the sources located at
that cell. -/
lemma midInject_apply (L : List EMSource) (t : ℝ) (h0 : ℕ → ℝ) (i : ℕ) :
    L.foldl (emMidStep t) h0 i =
      h0 i + (L.map (fun s =>
        if s.index = i then s.amplitude * Real.sin (TAU * s.frequency * t + s.phase)
        else 0)).sum := by
  induction L generalizing h0 with
  | nil => simp
  | cons s L ih =>
    simp only [List.foldl_cons, List.map_cons, List.sum_cons]
    rw [ih]
    rcases eq_or_ne s.index i with h | h
    · subst h
      simp only [emMidStep, Function.update_same, eq_self_iff_true, if_true]
      ring
    · simp only [emMidStep, Function.update_noteq (Ne.symm h), if_neg h]
      ring

/-- The authoritative injection fold never modifies any component at a metal
or PML cell (every source located there is skipped, and other sources write
only at their own cells). -/
lemma injectFold_skip (S : EMSolver2D) (L : List EMSource)
    (e : (ℕ → ℝ) × (ℕ → ℝ) × (ℕ → ℝ)) (i : ℕ)
    (hi : maskAt S.metalMask i = true ∨ S.pmlMask i = true) :
    (L.foldl (emInjectStep S) e).1 i = e.1 i ∧
    (L.foldl (emInjectStep S) e).2.1 i = e.2.1 i ∧
    (L.foldl (emInjectStep S) e).2.2 i = e.2.2 i := by
  induction L generalizing e with
  | nil => exact ⟨rfl, rfl, rfl⟩
  | cons s L ih =>
    have hstep : (emInjectStep S e s).1 i = e.1 i ∧ (emInjectStep S e s).2.1 i = e.2.1 i ∧
        (emInjectStep S e s).2.2 i = e.2.2 i := by
      by_cases hm : maskAt S.metalMask s.index
      · simp [emInjectStep, hm]
      · by_cases hp : S.pmlMask s.index
        · simp [emInjectStep, hm, hp]
        · have hne : s.index ≠ i := by
            intro h
            subst h
            rcases hi with h | h
            · exact hm (by rw [h])
            · exact hp (by rw [h])
          cases hx : s.excite <;>
            simp [emInjectStep, hm, hp, hx, Function.update_noteq (Ne.symm hne)]
    rw [List.foldl_cons]
    obtain ⟨h1, h2, h3⟩ := ih (emInjectStep S e s)
    exact ⟨h1.trans hstep.1, h2.trans hstep.2.1, h3.trans hstep.2.2⟩

/-- The two injection folds leave every cell that hosts no source unchanged. -/
lemma injectFold_untouched (S : EMSolver2D) (L : List EMSource)
    (e : (ℕ → ℝ) × (ℕ → ℝ) × (ℕ → ℝ)) (i : ℕ)
    (hi : ∀ s ∈ L, s.index ≠ i) :
    (L.foldl (emInjectStep S) e).1 i = e.1 i ∧
    (L.foldl (emInjectStep S) e).2.1 i = e.2.1 i ∧
    (L.foldl (emInjectStep S) e).2.2 i = e.2.2 i := by
  induction L generalizing e with
  | nil => exact ⟨rfl, rfl, rfl⟩
  | cons s L ih =>
    have hne : s.index ≠ i := hi s (List.mem_cons_self s L)
    have hstep : (emInjectStep S e s).1 i = e.1 i ∧ (emInjectStep S e s).2.1 i = e.2.1 i ∧
        (emInjectStep S e s).2.2 i = e.2.2 i := by
      by_cases hm : maskAt S.metalMask s.index
      · simp [emInjectStep, hm]
      · by_cases hp : S.pmlMask s.index
        · simp [emInjectStep, hm, hp]
        · cases hx : s.excite <;>
            simp [emInjectStep, hm, hp, hx, Function.update_noteq (Ne.symm hne)]
    rw [List.foldl_cons]
    obtain ⟨h1, h2, h3⟩ := ih (emInjectStep S e s) (fun s hs => hi s (List.mem_cons_of_mem _ hs))
    exact ⟨h1.trans hstep.1, h2.trans hstep.2.1, h3.trans hstep.2.2⟩

lemma not_onEdge (nx ny i : ℕ) (hx0 : i % nx ≠ 0) (hx1 : i % nx ≠ nx - 1)
    (hy0 : i / nx ≠ 0) (hy1 : i / nx ≠ ny - 1) : ¬ onEdge nx ny i := by
  rintro ⟨-, h | h | h | h⟩ <;> [exact hx0 h; exact hx1 h; exact hy0 h; exact hy1 h]

/-! ### Evaluation helpers for concrete runs -/

lemma ex0_of_zero (S : EMSolver2D) (h : S.ex = fun _ => 0) (i : ℕ) :
    S.advanceTrace.ex0 i = 0 := by
  rw [advanceTrace_ex0, h]
  simp

lemma ey0_of_zero (S : EMSolver2D) (h : S.ey = fun _ => 0) (i : ℕ) :
    S.advanceTrace.ey0 i = 0 := by
  rw [advanceTrace_ey0, h]
  simp

lemma hz0_of_zero (S : EMSolver2D) (h : S.hz = fun _ => 0) (i : ℕ) :
    S.advanceTrace.hz0 i = 0 := by
  rw [advanceTrace_hz0, h]
  simp

/-- From an all-zero field state the Hz curl update produces zero
everywhere, whatever the material/PML coefficients are. -/
lemma hzCurl_of_zero (S : EMSolver2D) (hx : S.ex = fun _ => 0) (hy : S.ey = fun _ => 0)
    (hz : S.hz = fun _ => 0) (i : ℕ) : S.advanceTrace.hzCurl i = 0 := by
  rw [advanceTrace_hzCurl]
  split
  · rw [ex0_of_zero S hx, ex0_of_zero S hx, ey0_of_zero S hy, ey0_of_zero S hy,
      hz0_of_zero S hz]
    ring
  · exact hz0_of_zero S hz i

lemma hzMid_single (S : EMSolver2D) (s : EMSource) (hs : S.sources = [s]) :
    S.advanceTrace.hzMid = emMidStep S.time S.advanceTrace.hzCurl s := by
  rw [advanceTrace_hzMid, hs, List.foldl_cons, List.foldl_nil]

/-- `setBarrierFromShapes` only replaces the material grids: every other
member of the solver is untouched. -/
lemma setBarrier_preserves (S : EMSolver2D) (shapes : List ShapeObject) :
    (S.setBarrierFromShapes shapes).nx = S.nx ∧
    (S.setBarrierFromShapes shapes).ny = S.ny ∧
    (S.setBarrierFromShapes shapes).domain = S.domain ∧
    (S.setBarrierFromShapes shapes).dx = S.dx ∧
    (S.setBarrierFromShapes shapes).dy = S.dy ∧
    (S.setBarrierFromShapes shapes).dt = S.dt ∧
    (S.setBarrierFromShapes shapes).time = S.time ∧
    (S.setBarrierFromShapes shapes).loss = S.loss ∧
    (S.setBarrierFromShapes shapes).mu = S.mu ∧
    (S.setBarrierFromShapes shapes).eps = S.eps ∧
    (S.setBarrierFromShapes shapes).ex = S.ex ∧
    (S.setBarrierFromShapes shapes).ey = S.ey ∧
    (S.setBarrierFromShapes shapes).hz = S.hz ∧
    (S.setBarrierFromShapes shapes).sources = S.sources ∧
    (S.setBarrierFromShapes shapes).accumulator = S.accumulator ∧
    (S.setBarrierFromShapes shapes).pmlSigma = S.pmlSigma ∧
    (S.setBarrierFromShapes shapes).pmlMask = S.pmlMask ∧
    (S.setBarrierFromShapes shapes).avgTau = S.avgTau ∧
    (S.setBarrierFromShapes shapes).stats = S.stats := by
  unfold EMSolver2D.setBarrierFromShapes
  cases buildMaterialGrids S.domain S.nx S.ny shapes <;> and_intros <;> rfl

/-- Reading the metal mask produced by a single-shape
`setBarrierFromShapes`: the bit is set exactly at covered cells of a
metal-preset shape (for a non-metal shape no mask is created and the read
is `false` everywhere). -/
lemma setBarrier_single_metalAt (S : EMSolver2D) (shape : ShapeObject) (i : ℕ) :
    maskAt (S.setBarrierFromShapes [shape]).metalMask i =
      if shapeCovers S.domain S.nx S.ny shape i then isMetalOf shape else false := by
  unfold EMSolver2D.setBarrierFromShapes buildMaterialGrids
  simp only [List.isEmpty_cons, Bool.false_eq_true, if_false, List.foldl_cons, List.foldl_nil]
  cases hmet : isMetalOf shape
  · simp [applyShape, hmet, maskAt]
  · simp [applyShape, hmet, maskAt]

/-! ### Field values of the concrete 4×4 solver (`cfgA`) -/

lemma SA_nx : (EMSolver2D.create cfgA).nx = 4 := by
  simp [EMSolver2D.create, cfgA]

lemma SA_ny : (EMSolver2D.create cfgA).ny = 4 := by
  simp [EMSolver2D.create, cfgA]

lemma SA_dx : (EMSolver2D.create cfgA).dx = 1 := by
  simp [EMSolver2D.create, cfgA]

lemma SA_dy : (EMSolver2D.create cfgA).dy = 1 := by
  simp [EMSolver2D.create, cfgA]

lemma SA_dt : (EMSolver2D.create cfgA).dt = 0.45 / Real.sqrt 2 := by
  simp [EMSolver2D.create, cfgA, emWaveSpeed, clamp]
  norm_num

lemma SA_eps : (EMSolver2D.create cfgA).eps = 1 := by
  simp [EMSolver2D.create, cfgA, emWaveSpeed, clamp]
  norm_num

lemma SA_loss : (EMSolver2D.create cfgA).loss = 0 := by
  simp [EMSolver2D.create, cfgA, clamp]

lemma SA_pmlMask : (EMSolver2D.create cfgA).pmlMask = buildPmlMask 4 4 1 := by
  simp [EMSolver2D.create, cfgA]

lemma SA_pmlSigma : (EMSolver2D.create cfgA).pmlSigma = buildPmlSigma 4 4 1 1 1 1 := by
  simp [EMSolver2D.create, cfgA, emWaveSpeed, clamp]
  norm_num

lemma buildPmlSigmaA_5 : buildPmlSigma 4 4 1 1 1 1 5 = 0 := by
  norm_num [buildPmlSigma]

lemma buildPmlSigmaA_6 : buildPmlSigma 4 4 1 1 1 1 6 = 0 := by
  norm_num [buildPmlSigma]

lemma buildPmlSigmaA_9 : buildPmlSigma 4 4 1 1 1 1 9 = 0 := by
  norm_num [buildPmlSigma]

lemma buildPmlSigmaA_10 : buildPmlSigma 4 4 1 1 1 1 10 = 0 := by
  norm_num [buildPmlSigma]

/-! ### Trace evaluation on the concrete state `S5` (4×4, soft CW Hz at 5) -/

lemma S5_nx : S5.nx = 4 := SA_nx

lemma S5_ny : S5.ny = 4 := SA_ny

lemma S5_dy : S5.dy = 1 := SA_dy

lemma S5_dx : S5.dx = 1 := SA_dx

lemma S5_dt : S5.dt = 0.45 / Real.sqrt 2 := SA_dt

lemma S5_dt_nonneg : 0 ≤ S5.dt := by
  rw [S5_dt]
  positivity

lemma S5_eps : S5.eps = 1 := SA_eps

lemma S5_loss : S5.loss = 0 := SA_loss

lemma S5_metalAt (j : ℕ) : maskAt S5.metalMask j = false := rfl

lemma S5_sigmaGridAt (j : ℕ) : S5.sigmaGrid j = 0 := rfl

lemma S5_epsRAt (j : ℕ) : S5.epsRGrid j = 1 := rfl

lemma S5_pmlMask : S5.pmlMask = buildPmlMask 4 4 1 := SA_pmlMask

lemma S5_pmlSigma : S5.pmlSigma = buildPmlSigma 4 4 1 1 1 1 := SA_pmlSigma

lemma S5_sv :
    src5.amplitude * evalSourceSignal src5.waveform src5.frequency src5.phase src5.pulseWidth
      src5.pulseDelay S5.time = 1 := by
  simp [src5, evalSourceSignal, TAU, S5, EMSolver2D.create]

lemma S5_hzCurl (j : ℕ) : S5.advanceTrace.hzCurl j = 0 :=
  hzCurl_of_zero S5 rfl rfl rfl j

lemma S5_hzMid (j : ℕ) : S5.advanceTrace.hzMid j = if j = 5 then 1 else 0 := by
  rw [hzMid_single S5 src5 rfl]
  simp only [emMidStep, Function.update_apply, show src5.index = 5 from rfl]
  split
  · rw [S5_hzCurl]
    simp [src5, TAU, show S5.time = (0 : ℝ) from rfl]
  · exact S5_hzCurl j

lemma S5_exCurl5 : S5.advanceTrace.exCurl 5 = S5.dt := by
  rw [advanceTrace_exCurl, S5_nx, S5_ny,
    if_pos ⟨by norm_num, by norm_num, by norm_num, by norm_num, S5_metalAt 5⟩,
    ex0_of_zero S5 rfl, S5_pmlSigma]
  norm_num [S5_hzMid, S5_sigmaGridAt, S5_epsRAt, S5_eps, S5_loss, S5_dy, buildPmlSigmaA_5]

lemma S5_eyCurl5 : S5.advanceTrace.eyCurl 5 = -S5.dt := by
  rw [advanceTrace_eyCurl, S5_nx, S5_ny,
    if_pos ⟨by norm_num, by norm_num, by norm_num, by norm_num, S5_metalAt 5⟩,
    ey0_of_zero S5 rfl, S5_pmlSigma]
  norm_num [S5_hzMid, S5_sigmaGridAt, S5_epsRAt, S5_eps, S5_loss, S5_dx, buildPmlSigmaA_5]

lemma S5_exCurl6 : S5.advanceTrace.exCurl 6 = 0 := by
  rw [advanceTrace_exCurl, S5_nx, S5_ny,
    if_pos ⟨by norm_num, by norm_num, by norm_num, by norm_num, S5_metalAt 6⟩,
    ex0_of_zero S5 rfl, S5_pmlSigma]
  norm_num [S5_hzMid, S5_sigmaGridAt, S5_epsRAt, S5_eps, S5_loss, S5_dy, buildPmlSigmaA_6]

lemma S5_eyCurl6 : S5.advanceTrace.eyCurl 6 = S5.dt := by
  rw [advanceTrace_eyCurl, S5_nx, S5_ny,
    if_pos ⟨by norm_num, by norm_num, by norm_num, by norm_num, S5_metalAt 6⟩,
    ey0_of_zero S5 rfl, S5_pmlSigma]
  norm_num [S5_hzMid, S5_sigmaGridAt, S5_epsRAt, S5_eps, S5_loss, S5_dx, buildPmlSigmaA_6]

lemma S5_exCurl9 : S5.advanceTrace.exCurl 9 = -S5.dt := by
  rw [advanceTrace_exCurl, S5_nx, S5_ny,
    if_pos ⟨by norm_num, by norm_num, by norm_num, by norm_num, S5_metalAt 9⟩,
    ex0_of_zero S5 rfl, S5_pmlSigma]
  norm_num [S5_hzMid, S5_sigmaGridAt, S5_epsRAt, S5_eps, S5_loss, S5_dy, buildPmlSigmaA_9]

lemma S5_eyCurl9 : S5.advanceTrace.eyCurl 9 = 0 := by
  rw [advanceTrace_eyCurl, S5_nx, S5_ny,
    if_pos ⟨by norm_num, by norm_num, by norm_num, by norm_num, S5_metalAt 9⟩,
    ey0_of_zero S5 rfl, S5_pmlSigma]
  norm_num [S5_hzMid, S5_sigmaGridAt, S5_epsRAt, S5_eps, S5_loss, S5_dx, buildPmlSigmaA_9]

lemma S5_exCurl10 : S5.advanceTrace.exCurl 10 = 0 := by
  rw [advanceTrace_exCurl, S5_nx, S5_ny,
    if_pos ⟨by norm_num, by norm_num, by norm_num, by norm_num, S5_metalAt 10⟩,
    ex0_of_zero S5 rfl, S5_pmlSigma]
  norm_num [S5_hzMid, S5_sigmaGridAt, S5_epsRAt, S5_eps, S5_loss, S5_dy, buildPmlSigmaA_10]

lemma S5_eyCurl10 : S5.advanceTrace.eyCurl 10 = 0 := by
  rw [advanceTrace_eyCurl, S5_nx, S5_ny,
    if_pos ⟨by norm_num, by norm_num, by norm_num, by norm_num, S5_metalAt 10⟩,
    ey0_of_zero S5 rfl, S5_pmlSigma]
  norm_num [S5_hzMid, S5_sigmaGridAt, S5_epsRAt, S5_eps, S5_loss, S5_dx, buildPmlSigmaA_10]

lemma S5_pml5 : S5.pmlMask 5 = false := by
  rw [S5_pmlMask]
  rfl

lemma S5_inj :
    S5.advanceTrace.exInj = S5.advanceTrace.exCurl ∧
    S5.advanceTrace.eyInj = S5.advanceTrace.eyCurl ∧
    ∀ j, S5.advanceTrace.hzInj j = if j = 5 then 2 else S5.advanceTrace.hzMid j := by
  have h := advanceTrace_inj S5
  rw [show S5.sources = [src5] from rfl, List.foldl_cons, List.foldl_nil] at h
  rw [emInjectStep] at h
  rw [show maskAt S5.metalMask src5.index = false from rfl] at h
  rw [show S5.pmlMask src5.index = false from S5_pml5] at h
  simp only [Bool.false_eq_true, if_false, show src5.excite = Excite.hz from rfl,
    show src5.injection = Injection.soft from rfl] at h
  have h1 := congrArg (fun p => p.1) h
  have h2 := congrArg (fun p => p.2.1) h
  have h3 := congrArg (fun p => p.2.2) h
  simp only at h1 h2 h3
  refine ⟨h1, h2, fun j => ?_⟩
  rw [h3, show src5.index = 5 from rfl, Function.update_apply]
  split
  · rw [if_neg (fun hcon => Injection.noConfusion hcon), S5_hzMid 5, S5_sv]
    norm_num
  · rfl

lemma S5_advance_hz5 : S5.advance.hz 5 = 2 := by
  rw [advance_hz, advanceTrace_hzFin, S5_nx, S5_ny, if_neg (by norm_num [onEdge] : ¬ onEdge 4 4 5),
    S5_inj.2.2 5, if_pos rfl]

lemma S5_exFin (j : ℕ) (hj : ¬ onEdge 4 4 j) : S5.advance.ex j = S5.advanceTrace.exCurl j := by
  rw [advance_ex, advanceTrace_exFin, S5_nx, S5_ny, if_neg hj, S5_inj.1]

lemma S5_eyFin (j : ℕ) (hj : ¬ onEdge 4 4 j) : S5.advance.ey j = S5.advanceTrace.eyCurl j := by
  rw [advance_ey, advanceTrace_eyFin, S5_nx, S5_ny, if_neg hj, S5_inj.2.1]

lemma S5_exFinAt5 : S5.advanceTrace.exFin 5 = S5.dt := by
  rw [advanceTrace_exFin, S5_nx, S5_ny, if_neg (by norm_num [onEdge]), S5_inj.1, S5_exCurl5]

lemma S5_eyFinAt5 : S5.advanceTrace.eyFin 5 = -S5.dt := by
  rw [advanceTrace_eyFin, S5_nx, S5_ny, if_neg (by norm_num [onEdge]), S5_inj.2.1, S5_eyCurl5]

lemma S5_exFinAt6 : S5.advanceTrace.exFin 6 = 0 := by
  rw [advanceTrace_exFin, S5_nx, S5_ny, if_neg (by norm_num [onEdge]), S5_inj.1, S5_exCurl6]

lemma S5_eyFinAt6 : S5.advanceTrace.eyFin 6 = S5.dt := by
  rw [advanceTrace_eyFin, S5_nx, S5_ny, if_neg (by norm_num [onEdge]), S5_inj.2.1, S5_eyCurl6]

lemma S5_exFinAt9 : S5.advanceTrace.exFin 9 = -S5.dt := by
  rw [advanceTrace_exFin, S5_nx, S5_ny, if_neg (by norm_num [onEdge]), S5_inj.1, S5_exCurl9]

lemma S5_eyFinAt9 : S5.advanceTrace.eyFin 9 = 0 := by
  rw [advanceTrace_eyFin, S5_nx, S5_ny, if_neg (by norm_num [onEdge]), S5_inj.2.1, S5_eyCurl9]

lemma S5_exFinAt10 : S5.advanceTrace.exFin 10 = 0 := by
  rw [advanceTrace_exFin, S5_nx, S5_ny, if_neg (by norm_num [onEdge]), S5_inj.1, S5_exCurl10]

lemma S5_eyFinAt10 : S5.advanceTrace.eyFin 10 = 0 := by
  rw [advanceTrace_eyFin, S5_nx, S5_ny, if_neg (by norm_num [onEdge]), S5_inj.2.1, S5_eyCurl10]

lemma pmlFilterA :
    (Finset.range (4 * 4)).filter (fun i => buildPmlMask 4 4 1 i = false) = {5, 6, 9, 10} := by
  decide

lemma sum_nonPmlA (g : ℕ → ℝ) :
    (∑ i ∈ Finset.range (4 * 4), if buildPmlMask 4 4 1 i then 0 else g i) =
      g 5 + (g 6 + (g 9 + g 10)) := by
  have hsplit : (∑ i ∈ Finset.range (4 * 4), if buildPmlMask 4 4 1 i then 0 else g i) =
      ∑ i ∈ (Finset.range (4 * 4)).filter (fun i => buildPmlMask 4 4 1 i = false), g i := by
    rw [Finset.sum_filter]
    apply Finset.sum_congr rfl
    intro i _
    by_cases h : buildPmlMask 4 4 1 i <;> simp [h]
  rw [hsplit, pmlFilterA, Finset.sum_insert (by decide), Finset.sum_insert (by decide),
    Finset.sum_insert (by decide), Finset.sum_singleton]

/-! ### Field values of the concrete 6×6 solver (`cfgB`) and its states -/

lemma SB_nx : (EMSolver2D.create cfgB).nx = 6 := by
  simp [EMSolver2D.create, cfgB]

lemma SB_ny : (EMSolver2D.create cfgB).ny = 6 := by
  simp [EMSolver2D.create, cfgB]

lemma SB_pmlMask : (EMSolver2D.create cfgB).pmlMask = buildPmlMask 6 6 2 := by
  simp [EMSolver2D.create, cfgB]

lemma S3src_pml7 : S3src.pmlMask 7 = true := by
  rw [show S3src.pmlMask = buildPmlMask 6 6 2 from SB_pmlMask]
  rfl

lemma S3src_hzCurl (j : ℕ) : S3src.advanceTrace.hzCurl j = 0 :=
  hzCurl_of_zero S3src rfl rfl rfl j

lemma S3src_hzMid7 : S3src.advanceTrace.hzMid 7 = 1 := by
  rw [hzMid_single S3src src7 rfl]
  simp only [emMidStep, Function.update_same, show src7.index = 7 from rfl]
  rw [S3src_hzCurl]
  simp [src7, TAU, show S3src.time = (0 : ℝ) from rfl]

lemma S3src_advance_hz7 : S3src.advance.hz 7 = 1 := by
  have hfold := injectFold_skip S3src S3src.sources
    (S3src.advanceTrace.exCurl, S3src.advanceTrace.eyCurl, S3src.advanceTrace.hzMid) 7
    (Or.inr S3src_pml7)
  have h3 := congrArg (fun p => p.2.2 7) (advanceTrace_inj S3src)
  simp only at h3
  rw [advance_hz, advanceTrace_hzFin, show S3src.nx = 6 from SB_nx,
    show S3src.ny = 6 from SB_ny, if_neg (by norm_num [onEdge]), h3, hfold.2.2]
  exact S3src_hzMid7

lemma S3emp_advance_hz7 : S3emp.advance.hz 7 = 0 := by
  have h3 := congrArg (fun p => p.2.2 7) (advanceTrace_inj S3emp)
  rw [show S3emp.sources = [] from rfl, List.foldl_nil] at h3
  simp only at h3
  have hmid : S3emp.advanceTrace.hzMid 7 = 0 := by
    rw [advanceTrace_hzMid, show S3emp.sources = [] from rfl, List.foldl_nil]
    exact hzCurl_of_zero S3emp rfl rfl rfl 7
  rw [advance_hz, advanceTrace_hzFin, show S3emp.nx = 6 from SB_nx,
    show S3emp.ny = 6 from SB_ny, if_neg (by norm_num [onEdge]), h3]
  exact hmid

lemma coversB14 : shapeCovers cfgB.domain 6 6 metalCircle 14 := by
  simp only [shapeCovers, metalCircle, cfgB]
  norm_num
  rw [Int.le_ceil_iff]
  norm_num

lemma S6_metal14 : maskAt S6cex.metalMask 14 = true := by
  have h := setBarrier_single_metalAt (EMSolver2D.create cfgB) metalCircle 14
  rw [SB_nx, SB_ny] at h
  rw [show maskAt S6cex.metalMask 14 =
    maskAt ((EMSolver2D.create cfgB).setBarrierFromShapes [metalCircle]).metalMask 14 from rfl, h,
    if_pos (by exact coversB14)]
  rfl

lemma S6_preserved :
    S6cex.ex = (fun _ => 0) ∧ S6cex.ey = (fun _ => 0) ∧ S6cex.hz = (fun _ => 0) ∧
    S6cex.nx = 6 ∧ S6cex.ny = 6 ∧ S6cex.time = 0 ∧ S6base.sources = [] := by
  obtain ⟨hnx, hny, -, -, -, -, htime, -, -, -, hex, hey, hhz, hsrc, -, -, -, -, -⟩ :=
    setBarrier_preserves (EMSolver2D.create cfgB) [metalCircle]
  exact ⟨hex, hey, hhz, hnx.trans SB_nx, hny.trans SB_ny, htime, hsrc⟩

lemma S6_advance_hz14 : S6cex.advance.hz 14 = 1 := by
  obtain ⟨hex, hey, hhz, hnx, hny, htime, -⟩ := S6_preserved
  have hcurl := hzCurl_of_zero S6cex hex hey hhz
  have hmid : S6cex.advanceTrace.hzMid 14 = 1 := by
    rw [hzMid_single S6cex src14 rfl]
    simp only [emMidStep, Function.update_same, show src14.index = 14 from rfl]
    rw [hcurl]
    simp [src14, TAU, htime]
  have hfold := injectFold_skip S6cex S6cex.sources
    (S6cex.advanceTrace.exCurl, S6cex.advanceTrace.eyCurl, S6cex.advanceTrace.hzMid) 14
    (Or.inl S6_metal14)
  have h3 := congrArg (fun p => p.2.2 14) (advanceTrace_inj S6cex)
  simp only at h3
  rw [advance_hz, advanceTrace_hzFin, hnx, hny, if_neg (by norm_num [onEdge]), h3,
    hfold.2.2]
  exact hmid

/-! ### Last-covering-shape characterisation of the material builder -/

lemma lastCoverAux_eq (dom : Domain) (nx ny : ℕ) (L : List ShapeObject) (i : ℕ)
    (a : Option ShapeObject) :
    L.foldl (fun acc s => if shapeCovers dom nx ny s i then some s else acc) a =
      (match lastCoveringShape dom nx ny L i with
       | some s => some s
       | none => a) := by
  induction L generalizing a with
  | nil => simp [lastCoveringShape]
  | cons s L ih =>
    rw [List.foldl_cons, ih]
    have hcons : lastCoveringShape dom nx ny (s :: L) i =
        L.foldl (fun acc t => if shapeCovers dom nx ny t i then some t else acc)
          (if shapeCovers dom nx ny s i then some s else none) := by
      rw [lastCoveringShape, List.foldl_cons]
    rw [hcons, ih]
    rcases hL : lastCoveringShape dom nx ny L i with - | t
    · by_cases h : shapeCovers dom nx ny s i <;> simp [h]
    · rfl

lemma lastCover_cons (dom : Domain) (nx ny : ℕ) (s : ShapeObject) (L : List ShapeObject)
    (i : ℕ) :
    lastCoveringShape dom nx ny (s :: L) i =
      (match lastCoveringShape dom nx ny L i with
       | some t => some t
       | none => if shapeCovers dom nx ny s i then some s else none) := by
  rw [lastCoveringShape, List.foldl_cons]
  exact lastCoverAux_eq dom nx ny L i _

/-- Reading one cell of the grids after one `applyShape` step. -/
lemma applyShape_at (dom : Domain) (nx ny : ℕ) (g : MaterialGrids) (s : ShapeObject) (i : ℕ) :
    (applyShape dom nx ny g s).epsR i =
      (if shapeCovers dom nx ny s i then epsValOf s else g.epsR i) ∧
    (applyShape dom nx ny g s).sigma i =
      (if shapeCovers dom nx ny s i then sigValOf s else g.sigma i) ∧
    maskAt (applyShape dom nx ny g s).metalMask i =
      (if shapeCovers dom nx ny s i then isMetalOf s else maskAt g.metalMask i) := by
  refine ⟨rfl, rfl, ?_⟩
  cases hgm : g.metalMask with
  | none =>
    cases hmet : isMetalOf s
    · simp [applyShape, hgm, hmet, maskAt]
    · simp only [applyShape, hgm, hmet, Option.isNone_none, Bool.and_true, if_true,
        Option.map_some, maskAt]
      by_cases hc : shapeCovers dom nx ny s i <;> simp [hc, maskAt]
  | some m =>
    simp [applyShape, hgm, maskAt]

/-- Last-wins characterisation of the full shape fold of
`buildMaterialGrids`: each cell carries the material values of the last
shape covering it, or the initial grid's values when no shape covers it. -/
lemma applyShape_foldl_spec (dom : Domain) (nx ny : ℕ) (L : List ShapeObject) (i : ℕ) :
    ∀ g : MaterialGrids,
      (L.foldl (applyShape dom nx ny) g).epsR i =
        (match lastCoveringShape dom nx ny L i with
         | some s => epsValOf s
         | none => g.epsR i) ∧
      (L.foldl (applyShape dom nx ny) g).sigma i =
        (match lastCoveringShape dom nx ny L i with
         | some s => sigValOf s
         | none => g.sigma i) ∧
      maskAt (L.foldl (applyShape dom nx ny) g).metalMask i =
        (match lastCoveringShape dom nx ny L i with
         | some s => isMetalOf s
         | none => maskAt g.metalMask i) := by
  induction L with
  | nil =>
    intro g
    simp [lastCoveringShape]
  | cons s L ih =>
    intro g
    rw [List.foldl_cons, lastCover_cons]
    obtain ⟨h1, h2, h3⟩ := ih (applyShape dom nx ny g s)
    obtain ⟨e1, e2, e3⟩ := applyShape_at dom nx ny g s i
    rw [h1, h2, h3, e1, e2, e3]
    rcases hL : lastCoveringShape dom nx ny L i with - | t
    · split_ifs <;> exact ⟨rfl, rfl, rfl⟩
    · exact ⟨rfl, rfl, rfl⟩

lemma em_create_dx_pos (cfg : SolverConfig) (hx : 0 < cfg.domain.worldSize.x) :
    0 < (EMSolver2D.create cfg).dx :=
  div_pos hx (cast_max_one_pos _)

lemma em_create_dy_pos (cfg : SolverConfig) (hy : 0 < cfg.domain.worldSize.y) :
    0 < (EMSolver2D.create cfg).dy :=
  div_pos hy (cast_max_one_pos _)

lemma wave_create_dx_pos (cfg : SolverConfig) (hx : 0 < cfg.domain.worldSize.x) :
    0 < (WaveSolver2D.create cfg).dx :=
  div_pos hx (cast_max_one_pos _)

lemma wave_create_dy_pos (cfg : SolverConfig) (hy : 0 < cfg.domain.worldSize.y) :
    0 < (WaveSolver2D.create cfg).dy :=
  div_pos hy (cast_max_one_pos _)

lemma emWaveSpeed_pos (solver : SolverSettings) : 0 < emWaveSpeed solver :=
  clamp_pos (by norm_num) (by norm_num)

lemma waveWaveSpeed_pos (solver : SolverSettings) : 0 < waveWaveSpeed solver :=
  clamp_pos (by norm_num) (by norm_num)

lemma em_create_dt_pos (cfg : SolverConfig) (hx : 0 < cfg.domain.worldSize.x)
    (hy : 0 < cfg.domain.worldSize.y) : 0 < (EMSolver2D.create cfg).dt := by
  have h1 : 0 < min (EMSolver2D.create cfg).dx (EMSolver2D.create cfg).dy :=
    lt_min (em_create_dx_pos cfg hx) (em_create_dy_pos cfg hy)
  have h2 : 0 < emWaveSpeed cfg.solver := emWaveSpeed_pos cfg.solver
  have h3 : (0 : ℝ) < Real.sqrt 2 := Real.sqrt_pos.mpr (by norm_num)
  show 0 < 0.45 * min (EMSolver2D.create cfg).dx (EMSolver2D.create cfg).dy /
    (emWaveSpeed cfg.solver * Real.sqrt 2)
  positivity

lemma wave_create_dt_pos (cfg : SolverConfig) (hx : 0 < cfg.domain.worldSize.x)
    (hy : 0 < cfg.domain.worldSize.y) : 0 < (WaveSolver2D.create cfg).dt := by
  have h1 : 0 < min (WaveSolver2D.create cfg).dx (WaveSolver2D.create cfg).dy :=
    lt_min (wave_create_dx_pos cfg hx) (wave_create_dy_pos cfg hy)
  have h2 : 0 < waveWaveSpeed cfg.solver := waveWaveSpeed_pos cfg.solver
  have h3 : (0 : ℝ) < Real.sqrt 2 := Real.sqrt_pos.mpr (by norm_num)
  show 0 < 0.45 * min (WaveSolver2D.create cfg).dx (WaveSolver2D.create cfg).dy /
    (waveWaveSpeed cfg.solver * Real.sqrt 2)
  positivity

lemma cast_max_sub_one (m : ℕ) :
    ((max 1 (max 2 m - 1) : ℕ) : ℝ) = ((max 2 m : ℕ) : ℝ) - 1 := by
  have h2 : 2 ≤ max 2 m := le_max_left _ _
  rw [max_eq_right (by omega : 1 ≤ max 2 m - 1), Nat.cast_sub (by omega)]
  norm_num

/-! ### Claim C1 -/

/-- Claim C1: for every solver constructed from any domain geometry (with a
positive world size, so that the grid spacings are positive) and any solver
settings, the fixed time-step satisfies
`dt = cfl·min(dx,dy)/(waveSpeed·√2)` with `cfl = 0.45` and
`dx = worldSize.x/(nx-1)`, `dy = worldSize.y/(ny-1)`, and consequently
`waveSpeed·dt·√(1/dx²+1/dy²) ≤ cfl < 1` — for both `EMSolver2D` (speed
clamped to `[0.05, 50]`) and `WaveSolver2D` (speed clamped to `[0.05, 20]`). -/
theorem c1_cfl_stability (cfg : SolverConfig)
    (hx : 0 < cfg.domain.worldSize.x) (hy : 0 < cfg.domain.worldSize.y) :
    ((EMSolver2D.create cfg).dt =
      0.45 * min (EMSolver2D.create cfg).dx (EMSolver2D.create cfg).dy /
        (emWaveSpeed cfg.solver * Real.sqrt 2) ∧
    (EMSolver2D.create cfg).dx =
      cfg.domain.worldSize.x / (((EMSolver2D.create cfg).nx : ℝ) - 1) ∧
    (EMSolver2D.create cfg).dy =
      cfg.domain.worldSize.y / (((EMSolver2D.create cfg).ny : ℝ) - 1) ∧
    emWaveSpeed cfg.solver * (EMSolver2D.create cfg).dt *
      Real.sqrt (1 / (EMSolver2D.create cfg).dx ^ 2 + 1 / (EMSolver2D.create cfg).dy ^ 2)
        ≤ 0.45) ∧
    ((WaveSolver2D.create cfg).dt =
      0.45 * min (WaveSolver2D.create cfg).dx (WaveSolver2D.create cfg).dy /
        (waveWaveSpeed cfg.solver * Real.sqrt 2) ∧
    (WaveSolver2D.create cfg).dx =
      cfg.domain.worldSize.x / (((WaveSolver2D.create cfg).nx : ℝ) - 1) ∧
    (WaveSolver2D.create cfg).dy =
      cfg.domain.worldSize.y / (((WaveSolver2D.create cfg).ny : ℝ) - 1) ∧
    waveWaveSpeed cfg.solver * (WaveSolver2D.create cfg).dt *
      Real.sqrt (1 / (WaveSolver2D.create cfg).dx ^ 2 + 1 / (WaveSolver2D.create cfg).dy ^ 2)
        ≤ 0.45) ∧
    (0.45 : ℝ) < 1 := by
  refine ⟨⟨rfl, ?_, ?_, ?_⟩, ⟨rfl, ?_, ?_, ?_⟩, by norm_num⟩
  · show cfg.domain.worldSize.x / ((max 1 ((EMSolver2D.create cfg).nx - 1) : ℕ) : ℝ) = _
    rw [show (EMSolver2D.create cfg).nx = max 2 (Int.toNat ⌊cfg.domain.grid.nx⌋) from rfl,
      cast_max_sub_one]
  · show cfg.domain.worldSize.y / ((max 1 ((EMSolver2D.create cfg).ny - 1) : ℕ) : ℝ) = _
    rw [show (EMSolver2D.create cfg).ny = max 2 (Int.toNat ⌊cfg.domain.grid.ny⌋) from rfl,
      cast_max_sub_one]
  · exact cfl_bound (em_create_dx_pos cfg hx) (em_create_dy_pos cfg hy)
      (emWaveSpeed_pos cfg.solver)
  · show cfg.domain.worldSize.x / ((max 1 ((WaveSolver2D.create cfg).nx - 1) : ℕ) : ℝ) = _
    rw [show (WaveSolver2D.create cfg).nx = max 2 (Int.toNat ⌊cfg.domain.grid.nx⌋) from rfl,
      cast_max_sub_one]
  · show cfg.domain.worldSize.y / ((max 1 ((WaveSolver2D.create cfg).ny - 1) : ℕ) : ℝ) = _
    rw [show (WaveSolver2D.create cfg).ny = max 2 (Int.toNat ⌊cfg.domain.grid.ny⌋) from rfl,
      cast_max_sub_one]
  · exact cfl_bound (wave_create_dx_pos cfg hx) (wave_create_dy_pos cfg hy)
      (waveWaveSpeed_pos cfg.solver)

/-- Witness for C1 at the concrete configuration `cfgA`. -/
theorem c1_cfl_stability_witness :
    ((EMSolver2D.create cfgA).dt =
      0.45 * min (EMSolver2D.create cfgA).dx (EMSolver2D.create cfgA).dy /
        (emWaveSpeed cfgA.solver * Real.sqrt 2) ∧
    (EMSolver2D.create cfgA).dx =
      cfgA.domain.worldSize.x / (((EMSolver2D.create cfgA).nx : ℝ) - 1) ∧
    (EMSolver2D.create cfgA).dy =
      cfgA.domain.worldSize.y / (((EMSolver2D.create cfgA).ny : ℝ) - 1) ∧
    emWaveSpeed cfgA.solver * (EMSolver2D.create cfgA).dt *
      Real.sqrt (1 / (EMSolver2D.create cfgA).dx ^ 2 + 1 / (EMSolver2D.create cfgA).dy ^ 2)
        ≤ 0.45) ∧
    ((WaveSolver2D.create cfgA).dt =
      0.45 * min (WaveSolver2D.create cfgA).dx (WaveSolver2D.create cfgA).dy /
        (waveWaveSpeed cfgA.solver * Real.sqrt 2) ∧
    (WaveSolver2D.create cfgA).dx =
      cfgA.domain.worldSize.x / (((WaveSolver2D.create cfgA).nx : ℝ) - 1) ∧
    (WaveSolver2D.create cfgA).dy =
      cfgA.domain.worldSize.y / (((WaveSolver2D.create cfgA).ny : ℝ) - 1) ∧
    waveWaveSpeed cfgA.solver * (WaveSolver2D.create cfgA).dt *
      Real.sqrt (1 / (WaveSolver2D.create cfgA).dx ^ 2 + 1 / (WaveSolver2D.create cfgA).dy ^ 2)
        ≤ 0.45) ∧
    (0.45 : ℝ) < 1 :=
  c1_cfl_stability cfgA (by norm_num [cfgA]) (by norm_num [cfgA])

/-! ### Claim C4 -/

/-- Claim C4 (implicit, describing the code): in every fixed advance of the
EM solver with a non-empty active source list, the Hz array handed from the
Hz update to the E update (`hzMid`, sitting between `hzCurl` and `exCurl` /
`eyCurl` in `advanceTrace`) additionally receives
`amplitude * sin(2π·frequency·t + phase)` at each active source's grid
cell — for every source regardless of waveform, injection mode or excited
component, and without any PML or metal skip. -/
theorem c4_unconditional_mid_injection (S : EMSolver2D) (_hne : S.sources ≠ []) (i : ℕ) :
    S.advanceTrace.hzMid i =
      S.advanceTrace.hzCurl i +
        (S.sources.map (fun s =>
          if s.index = i then s.amplitude * Real.sin (TAU * s.frequency * S.time + s.phase)
          else 0)).sum := by
  rw [advanceTrace_hzMid, midInject_apply]

/-! ### Claim C3 (amended) -/

/-- Claim C3, amended: for a cell inside the PML band or inside the metal
mask, the authoritative injection stage of the advance leaves all three
components unchanged there (sources at such cells are skipped by that
stage), but the unconditional mid-step Hz injection still adds
`amplitude * sin(2π·f·t + phase)` to Hz at the cell for every active source
located there. -/
theorem c3_amended_pml_metal_sources (S : EMSolver2D) (i : ℕ)
    (hi : maskAt S.metalMask i = true ∨ S.pmlMask i = true) :
    S.advanceTrace.exInj i = S.advanceTrace.exCurl i ∧
    S.advanceTrace.eyInj i = S.advanceTrace.eyCurl i ∧
    S.advanceTrace.hzInj i = S.advanceTrace.hzMid i ∧
    S.advanceTrace.hzMid i =
      S.advanceTrace.hzCurl i +
        (S.sources.map (fun s =>
          if s.index = i then s.amplitude * Real.sin (TAU * s.frequency * S.time + s.phase)
          else 0)).sum := by
  have hfold := injectFold_skip S S.sources
    (S.advanceTrace.exCurl, S.advanceTrace.eyCurl, S.advanceTrace.hzMid) i hi
  have h1 := congrArg (fun p => p.1 i) (advanceTrace_inj S)
  have h2 := congrArg (fun p => p.2.1 i) (advanceTrace_inj S)
  have h3 := congrArg (fun p => p.2.2 i) (advanceTrace_inj S)
  simp only at h1 h2 h3
  exact ⟨h1.trans hfold.1, h2.trans hfold.2.1, h3.trans hfold.2.2,
    by rw [advanceTrace_hzMid, midInject_apply]⟩

/-- Counterexample for claim C3 as stated: `src7` sits at cell 7, a
non-edge cell inside the PML band of the 6×6 solver.  The claim says no
field component at that cell is modified by source injection during the
advance; but with the source present the post-advance Hz at cell 7 is 1,
while without any source it is 0 — the unconditional mid-step Hz injection
is not skipped for PML-band (or metal) sources. -/
theorem c3_counterexample :
    S3src.pmlMask 7 = true ∧
    S3src.sources = [src7] ∧ src7.index = 7 ∧
    S3src.advance.hz 7 = 1 ∧ S3emp.advance.hz 7 = 0 ∧
    S3src.advance.hz 7 ≠ S3emp.advance.hz 7 := by
  refine ⟨S3src_pml7, rfl, rfl, S3src_advance_hz7, S3emp_advance_hz7, ?_⟩
  rw [S3src_advance_hz7, S3emp_advance_hz7]
  norm_num

/-- Witness for the amended C3 at the concrete PML-band source state. -/
theorem c3_amended_pml_metal_sources_witness :
    S3src.advanceTrace.exInj 7 = S3src.advanceTrace.exCurl 7 ∧
    S3src.advanceTrace.eyInj 7 = S3src.advanceTrace.eyCurl 7 ∧
    S3src.advanceTrace.hzInj 7 = S3src.advanceTrace.hzMid 7 ∧
    S3src.advanceTrace.hzMid 7 =
      S3src.advanceTrace.hzCurl 7 +
        (S3src.sources.map (fun s =>
          if s.index = 7 then s.amplitude * Real.sin (TAU * s.frequency * S3src.time + s.phase)
          else 0)).sum :=
  c3_amended_pml_metal_sources S3src 7 (Or.inr S3src_pml7)

/-- Witness for C4 at a gaussian, hard-injection, Ex-exciting source placed
in the PML band: the mid-step Hz injection still adds the CW-form signal. -/
theorem c4_unconditional_mid_injection_witness :
    S4wit.advanceTrace.hzMid 7 =
      S4wit.advanceTrace.hzCurl 7 +
        (S4wit.sources.map (fun s =>
          if s.index = 7 then s.amplitude * Real.sin (TAU * s.frequency * S4wit.time + s.phase)
          else 0)).sum :=
  c4_unconditional_mid_injection S4wit (List.cons_ne_nil srcG []) 7

/-- Counterexample for claim C6 as stated: on the 6×6 solver with the metal
circle covering cell 14 and an active source at that same metal cell, the
post-advance Hz at the metal cell is 1, not 0 — the unconditional mid-step
Hz injection deposits the signal into the metal region. -/
theorem c6_counterexample :
    maskAt S6cex.metalMask 14 = true ∧
    S6cex.sources = [src14] ∧ src14.index = 14 ∧
    S6cex.advance.hz 14 = 1 ∧ (1 : ℝ) ≠ 0 :=
  ⟨S6_metal14, rfl, rfl, S6_advance_hz14, by norm_num⟩

/-! ### Claim C2 (amended) -/

/-- Claim C2, amended: for a single active CW source (with nonnegative
frequency) at a non-boundary, non-PML, non-metal cell, after a fixed
advance:
* with `hard` injection the excited component at the source cell equals
  exactly `amplitude * signal(t)`, for every choice of excited component
  (for rotated E, both components equal the rotated signal), regardless of
  what the stencil update computed;
* with `soft` injection into `Ex`, `Ey` or rotated E, the component equals
  the stencil-computed value of this advance plus `amplitude * signal(t)`,
  added exactly once (note the stencil value itself was computed from the
  Hz field already perturbed by the unconditional mid-step Hz injection);
* with `soft` injection into `Hz`, the signal is added twice — once by the
  unconditional mid-step Hz injection and once by the authoritative
  injection — so the value equals the stencil-computed Hz plus
  `2 · amplitude · signal(t)`, not plus the signal once. -/
theorem c2_amended_hard_soft_injection (S : EMSolver2D) (s : EMSource)
    (hs : S.sources = [s]) (hw : s.waveform = .cw) (hf : 0 ≤ s.frequency)
    (hx0 : s.index % S.nx ≠ 0) (hx1 : s.index % S.nx ≠ S.nx - 1)
    (hy0 : s.index / S.nx ≠ 0) (hy1 : s.index / S.nx ≠ S.ny - 1)
    (hm : maskAt S.metalMask s.index = false) (hp : S.pmlMask s.index = false) :
    (s.injection = .hard → s.excite = .hz →
      S.advance.hz s.index = s.amplitude *
        evalSourceSignal s.waveform s.frequency s.phase s.pulseWidth s.pulseDelay S.time) ∧
    (s.injection = .hard → s.excite = .ex →
      S.advance.ex s.index = s.amplitude *
        evalSourceSignal s.waveform s.frequency s.phase s.pulseWidth s.pulseDelay S.time) ∧
    (s.injection = .hard → s.excite = .ey →
      S.advance.ey s.index = s.amplitude *
        evalSourceSignal s.waveform s.frequency s.phase s.pulseWidth s.pulseDelay S.time) ∧
    (s.injection = .hard → s.excite = .erot →
      S.advance.ex s.index = s.amplitude *
        evalSourceSignal s.waveform s.frequency s.phase s.pulseWidth s.pulseDelay S.time *
          Real.cos (s.polarizationAngle * Real.pi / 180) ∧
      S.advance.ey s.index = s.amplitude *
        evalSourceSignal s.waveform s.frequency s.phase s.pulseWidth s.pulseDelay S.time *
          Real.sin (s.polarizationAngle * Real.pi / 180)) ∧
    (s.injection = .soft → s.excite = .ex →
      S.advance.ex s.index = S.advanceTrace.exCurl s.index + s.amplitude *
        evalSourceSignal s.waveform s.frequency s.phase s.pulseWidth s.pulseDelay S.time) ∧
    (s.injection = .soft → s.excite = .ey →
      S.advance.ey s.index = S.advanceTrace.eyCurl s.index + s.amplitude *
        evalSourceSignal s.waveform s.frequency s.phase s.pulseWidth s.pulseDelay S.time) ∧
    (s.injection = .soft → s.excite = .erot →
      S.advance.ex s.index = S.advanceTrace.exCurl s.index + s.amplitude *
        evalSourceSignal s.waveform s.frequency s.phase s.pulseWidth s.pulseDelay S.time *
          Real.cos (s.polarizationAngle * Real.pi / 180) ∧
      S.advance.ey s.index = S.advanceTrace.eyCurl s.index + s.amplitude *
        evalSourceSignal s.waveform s.frequency s.phase s.pulseWidth s.pulseDelay S.time *
          Real.sin (s.polarizationAngle * Real.pi / 180)) ∧
    (s.injection = .soft → s.excite = .hz →
      S.advance.hz s.index = S.advanceTrace.hzCurl s.index + 2 * (s.amplitude *
        evalSourceSignal s.waveform s.frequency s.phase s.pulseWidth s.pulseDelay S.time)) := by
  have hedge := not_onEdge S.nx S.ny s.index hx0 hx1 hy0 hy1
  have hhz : S.advance.hz s.index = S.advanceTrace.hzInj s.index := by
    rw [advance_hz, advanceTrace_hzFin, if_neg hedge]
  have hhx : S.advance.ex s.index = S.advanceTrace.exInj s.index := by
    rw [advance_ex, advanceTrace_exFin, if_neg hedge]
  have hhy : S.advance.ey s.index = S.advanceTrace.eyInj s.index := by
    rw [advance_ey, advanceTrace_eyFin, if_neg hedge]
  have hfold : (S.advanceTrace.exInj, S.advanceTrace.eyInj, S.advanceTrace.hzInj) =
      emInjectStep S (S.advanceTrace.exCurl, S.advanceTrace.eyCurl, S.advanceTrace.hzMid) s := by
    rw [advanceTrace_inj, hs, List.foldl_cons, List.foldl_nil]
  have h1 := congrArg (fun p => p.1 s.index) hfold
  have h2 := congrArg (fun p => p.2.1 s.index) hfold
  have h3 := congrArg (fun p => p.2.2 s.index) hfold
  simp only at h1 h2 h3
  have hmid : S.advanceTrace.hzMid s.index = S.advanceTrace.hzCurl s.index +
      s.amplitude * Real.sin (TAU * s.frequency * S.time + s.phase) := by
    rw [advanceTrace_hzMid, hs, List.foldl_cons, List.foldl_nil, emMidStep,
      Function.update_same]
  have hsv : evalSourceSignal s.waveform s.frequency s.phase s.pulseWidth s.pulseDelay S.time =
      Real.sin (TAU * s.frequency * S.time + s.phase) := by
    rw [hw]
    simp only [evalSourceSignal, max_eq_right hf]
  refine ⟨?_, ?_, ?_, ?_, ?_, ?_, ?_, ?_⟩
  · intro hi he
    rw [hhz, h3]
    simp [emInjectStep, hm, hp, he, hi]
  · intro hi he
    rw [hhx, h1]
    simp [emInjectStep, hm, hp, he, hi]
  · intro hi he
    rw [hhy, h2]
    simp [emInjectStep, hm, hp, he, hi]
  · intro hi he
    constructor
    · rw [hhx, h1]
      simp [emInjectStep, hm, hp, he, hi]
    · rw [hhy, h2]
      simp [emInjectStep, hm, hp, he, hi]
  · intro hi he
    rw [hhx, h1]
    simp [emInjectStep, hm, hp, he, hi]
  · intro hi he
    rw [hhy, h2]
    simp [emInjectStep, hm, hp, he, hi]
  · intro hi he
    constructor
    · rw [hhx, h1]
      simp [emInjectStep, hm, hp, he, hi]
    · rw [hhy, h2]
      simp [emInjectStep, hm, hp, he, hi]
  · intro hi he
    rw [hhz, h3]
    simp [emInjectStep, hm, hp, he, hi, hmid, hsv]
    ring

/-- Counterexample for claim C2 as stated: `S5` holds a single CW source
with `soft` injection into Hz at the non-boundary, non-PML, non-metal cell 5
of a fresh 4×4 solver.  The stencil-computed Hz at the cell is 0 and the
injected signal is `amplitude·signal(t) = 1`, so the claim predicts a field
value `0 + 1 = 1` "added exactly once"; the code produces `2`, because the
unconditional mid-step Hz injection adds the same CW signal a second time. -/
theorem c2_counterexample :
    S5.advanceTrace.hzCurl 5 = 0 ∧
    S5.advance.hz 5 = 2 ∧
    S5.advanceTrace.hzCurl 5 + src5.amplitude *
      evalSourceSignal src5.waveform src5.frequency src5.phase src5.pulseWidth src5.pulseDelay
        S5.time = 1 ∧
    (2 : ℝ) ≠ 1 := by
  refine ⟨S5_hzCurl 5, S5_advance_hz5, ?_, by norm_num⟩
  rw [S5_hzCurl 5, S5_sv]
  norm_num

/-- Witness for the amended C2: the hard-injection CW Hz source `src5h` at
cell 5 of the fresh 4×4 solver yields exactly `amplitude·signal(t)` there. -/
theorem c2_amended_hard_soft_injection_witness :
    S2wit.advance.hz src5h.index = src5h.amplitude *
      evalSourceSignal src5h.waveform src5h.frequency src5h.phase src5h.pulseWidth
        src5h.pulseDelay S2wit.time :=
  (c2_amended_hard_soft_injection S2wit src5h rfl rfl (by norm_num [src5h])
    (by rw [show S2wit.nx = 4 from SA_nx, show src5h.index = 5 from rfl]; norm_num)
    (by rw [show S2wit.nx = 4 from SA_nx, show src5h.index = 5 from rfl]; norm_num)
    (by rw [show S2wit.nx = 4 from SA_nx, show src5h.index = 5 from rfl]; norm_num)
    (by rw [show S2wit.nx = 4 from SA_nx, show S2wit.ny = 4 from SA_ny,
      show src5h.index = 5 from rfl]; norm_num)
    rfl
    (by rw [show S2wit.pmlMask = buildPmlMask 4 4 1 from SA_pmlMask]; rfl)).1 rfl rfl

/-! ### Claim C5 (corrected) -/

/-- Claim C5, amended: after every fixed advance, `getStats().meanInstantaneous`
equals the sum of the instantaneous non-PML magnitudes divided by the TOTAL
number of grid cells `nx*ny` (not by the number of non-PML cells); PML cells
contribute zero to the sum (their instantaneous output is forced to 0). -/
theorem c5_amended_mean_over_all_cells (S : EMSolver2D) (i : ℕ) (hi : i < S.nx * S.ny)
    (hp : S.pmlMask i = true) :
    S.advance.getStats.meanInstantaneous =
      (∑ j ∈ Finset.range (S.nx * S.ny), S.advance.instantaneous j) / ((S.nx * S.ny : ℕ) : ℝ) ∧
    S.advance.instantaneous i = 0 := by
  constructor
  · rw [show S.advance.getStats = S.advance.stats from rfl, advance_mean]
    congr 1
    apply Finset.sum_congr rfl
    intro j hj
    rw [advance_instantaneous, if_pos (Finset.mem_range.mp hj)]
  · rw [advance_instantaneous, if_pos hi, if_pos hp]

/-- Counterexample for claim C5 as stated: on the 4×4 solver `S5` (PML width
1, so 4 of the 16 cells are non-PML) one advance produces a non-PML
instantaneous-magnitude sum of `dt·(2+√2)`; the code reports
`meanInstantaneous = dt·(2+√2)/16` (division by the total cell count), while
the claim's mean over non-PML cells is `dt·(2+√2)/4`, and the two differ. -/
theorem c5_counterexample :
    S5.advance.getStats.meanInstantaneous = S5.dt * (2 + Real.sqrt 2) / 16 ∧
    specMeanNonPml S5.advance = S5.dt * (2 + Real.sqrt 2) / 4 ∧
    S5.advance.getStats.meanInstantaneous ≠ specMeanNonPml S5.advance := by
  have hdt0 : 0 ≤ S5.dt := S5_dt_nonneg
  have hdtpos : 0 < S5.dt := by rw [S5_dt]; positivity
  have hmean : S5.advance.getStats.meanInstantaneous = S5.dt * (2 + Real.sqrt 2) / 16 := by
    rw [show S5.advance.getStats = S5.advance.stats from rfl, advance_mean, S5_nx, S5_ny,
      S5_pmlMask]
    rw [sum_nonPmlA (fun i => Real.sqrt (S5.advanceTrace.exFin i * S5.advanceTrace.exFin i +
      S5.advanceTrace.eyFin i * S5.advanceTrace.eyFin i))]
    rw [S5_exFinAt5, S5_eyFinAt5, S5_exFinAt6, S5_eyFinAt6, S5_exFinAt9, S5_eyFinAt9,
      S5_exFinAt10, S5_eyFinAt10]
    rw [show S5.dt * S5.dt + -S5.dt * -S5.dt = 2 * S5.dt ^ 2 by ring,
      Real.sqrt_mul (by norm_num) (S5.dt ^ 2), Real.sqrt_sq hdt0,
      show (0 : ℝ) * 0 + S5.dt * S5.dt = S5.dt ^ 2 by ring, Real.sqrt_sq hdt0,
      show -S5.dt * -S5.dt + (0 : ℝ) * 0 = S5.dt ^ 2 by ring, Real.sqrt_sq hdt0,
      show (0 : ℝ) * 0 + 0 * 0 = 0 by ring, Real.sqrt_zero]
    push_cast
    ring
  have hspec : specMeanNonPml S5.advance = S5.dt * (2 + Real.sqrt 2) / 4 := by
    unfold specMeanNonPml
    rw [(advance_nxny S5).1, (advance_nxny S5).2, S5_nx, S5_ny, advance_pmlMask, S5_pmlMask,
      pmlFilterA, advance_ex, advance_ey]
    rw [Finset.sum_insert (by decide), Finset.sum_insert (by decide),
      Finset.sum_insert (by decide), Finset.sum_singleton]
    rw [S5_exFinAt5, S5_eyFinAt5, S5_exFinAt6, S5_eyFinAt6, S5_exFinAt9, S5_eyFinAt9,
      S5_exFinAt10, S5_eyFinAt10]
    rw [show S5.dt ^ 2 + (-S5.dt) ^ 2 = 2 * S5.dt ^ 2 by ring,
      Real.sqrt_mul (by norm_num) (S5.dt ^ 2), Real.sqrt_sq hdt0,
      show (0 : ℝ) ^ 2 + S5.dt ^ 2 = S5.dt ^ 2 by ring, Real.sqrt_sq hdt0,
      show (-S5.dt) ^ 2 + (0 : ℝ) ^ 2 = S5.dt ^ 2 by ring, Real.sqrt_sq hdt0,
      show (0 : ℝ) ^ 2 + (0 : ℝ) ^ 2 = 0 by ring, Real.sqrt_zero]
    rw [show (({5, 6, 9, 10} : Finset ℕ)).card = 4 from by decide]
    push_cast
    ring
  refine ⟨hmean, hspec, ?_⟩
  rw [hmean, hspec]
  have hK : 0 < S5.dt * (2 + Real.sqrt 2) := by positivity
  exact ne_of_lt (div_lt_div_of_pos_left hK (by norm_num) (by norm_num))

/-- Witness for the amended C5 at the concrete state `S5` and the PML corner
cell 0. -/
theorem c5_amended_mean_over_all_cells_witness :
    S5.advance.getStats.meanInstantaneous =
      (∑ j ∈ Finset.range (S5.nx * S5.ny), S5.advance.instantaneous j) /
        ((S5.nx * S5.ny : ℕ) : ℝ) ∧
    S5.advance.instantaneous 0 = 0 :=
  c5_amended_mean_over_all_cells S5 0 (by rw [S5_nx, S5_ny]; norm_num)
    (by rw [S5_pmlMask]; rfl)

/-! ### Claim C6 (amended) -/

/-- Claim C6, amended: immediately after a fixed advance, `Ex`, `Ey` and
`Hz` are all zero at every metal-masked cell, provided no active source has
its grid index at a metal cell (the unconditional mid-step Hz injection
would otherwise deposit its signal into Hz at such a cell). -/
theorem c6_amended_metal_cells_zero (S : EMSolver2D)
    (hs : ∀ s ∈ S.sources, maskAt S.metalMask s.index = false) (i : ℕ)
    (hm : maskAt S.metalMask i = true) :
    S.advance.ex i = 0 ∧ S.advance.ey i = 0 ∧ S.advance.hz i = 0 := by
  have h0x : S.advanceTrace.ex0 i = 0 := by rw [advanceTrace_ex0, if_pos hm]
  have h0y : S.advanceTrace.ey0 i = 0 := by rw [advanceTrace_ey0, if_pos hm]
  have h0z : S.advanceTrace.hz0 i = 0 := by rw [advanceTrace_hz0, if_pos hm]
  have hcurl : S.advanceTrace.hzCurl i = 0 := by
    rw [advanceTrace_hzCurl, if_neg (by simp [hm]), h0z]
  have hne : ∀ s ∈ S.sources, s.index ≠ i := by
    intro s hsm h
    have hfalse := hs s hsm
    rw [h, hm] at hfalse
    exact Bool.noConfusion hfalse
  have hmid : S.advanceTrace.hzMid i = 0 := by
    rw [advanceTrace_hzMid, midInject_apply, hcurl, zero_add]
    apply List.sum_eq_zero
    intro x hx
    obtain ⟨s, hsm, rfl⟩ := List.mem_map.mp hx
    rw [if_neg (hne s hsm)]
  have hexc : S.advanceTrace.exCurl i = 0 := by
    rw [advanceTrace_exCurl, if_neg (by simp [hm]), h0x]
  have heyc : S.advanceTrace.eyCurl i = 0 := by
    rw [advanceTrace_eyCurl, if_neg (by simp [hm]), h0y]
  have hfold := injectFold_skip S S.sources
    (S.advanceTrace.exCurl, S.advanceTrace.eyCurl, S.advanceTrace.hzMid) i (Or.inl hm)
  have h1 := congrArg (fun p => p.1 i) (advanceTrace_inj S)
  have h2 := congrArg (fun p => p.2.1 i) (advanceTrace_inj S)
  have h3 := congrArg (fun p => p.2.2 i) (advanceTrace_inj S)
  simp only at h1 h2 h3
  have hix : S.advanceTrace.exInj i = 0 := by rw [h1, hfold.1]; exact hexc
  have hiy : S.advanceTrace.eyInj i = 0 := by rw [h2, hfold.2.1]; exact heyc
  have hiz : S.advanceTrace.hzInj i = 0 := by rw [h3, hfold.2.2]; exact hmid
  refine ⟨?_, ?_, ?_⟩
  · rw [advance_ex, advanceTrace_exFin]
    split
    · rfl
    · exact hix
  · rw [advance_ey, advanceTrace_eyFin]
    split
    · rfl
    · exact hiy
  · rw [advance_hz, advanceTrace_hzFin]
    split
    · rfl
    · exact hiz

/-- Witness for the amended C6 at the metal-circle state with no sources. -/
theorem c6_amended_metal_cells_zero_witness :
    S6base.advance.ex 14 = 0 ∧ S6base.advance.ey 14 = 0 ∧ S6base.advance.hz 14 = 0 :=
  c6_amended_metal_cells_zero S6base
    (by
      intro s hsmem
      rw [S6_preserved.2.2.2.2.2.2] at hsmem
      exact absurd hsmem (List.not_mem_nil s))
    14 S6_metal14

/-! ### Claim C7 -/

/-- Claim C7: for every call to `step(elapsedSeconds)` with a positive
elapsed time on any solver state (with positive `dt`, as produced by
construction), at most 8 fixed-size advances execute; after the call the
accumulator is at most `dt * 8`; and either exactly one `dt` of accumulator
was consumed per executed advance, or the sub-step cap of 8 was hit with at
least one `dt` remaining and the accumulator was clamped down to exactly
`dt * 8`.  This holds for both solver classes. -/
theorem c7_substep_cap (Se : EMSolver2D) (Sw : WaveSolver2D) (de dw : ℝ)
    (hde : 0 < de) (hdw : 0 < dw) (hdte : 0 < Se.dt) (hdtw : 0 < Sw.dt) :
    ((Se.stepResult de).2 ≤ 8 ∧
      (Se.step de).accumulator ≤ Se.dt * 8 ∧
      ((Se.step de).accumulator =
          Se.accumulator + de - ((Se.stepResult de).2 : ℝ) * Se.dt ∨
        ((Se.stepResult de).2 = 8 ∧ (Se.step de).accumulator = Se.dt * 8))) ∧
    ((Sw.stepResult dw).2 ≤ 8 ∧
      (Sw.step dw).accumulator ≤ Sw.dt * 8 ∧
      ((Sw.step dw).accumulator =
          Sw.accumulator + dw - ((Sw.stepResult dw).2 : ℝ) * Sw.dt ∨
        ((Sw.stepResult dw).2 = 8 ∧ (Sw.step dw).accumulator = Sw.dt * 8))) := by
  constructor
  · have hcount := runFixedSteps_count_le Se.dt EMSolver2D.advance 8 (Se.accumulator + de) Se
    have hacc := runFixedSteps_acc Se.dt EMSolver2D.advance 8 (Se.accumulator + de) Se
    have hstop := runFixedSteps_stop_lt Se.dt EMSolver2D.advance 8 (Se.accumulator + de) Se
    set r := runFixedSteps Se.dt EMSolver2D.advance 8 (Se.accumulator + de) Se with hr
    obtain ⟨hb, hd⟩ := clamp_spec Se.dt r.1 r.2.2 hdte hcount hstop
    have hcnt : (Se.stepResult de).2 = r.2.2 := by
      simp only [EMSolver2D.stepResult, if_pos hde, ← hr]
      split
      · split <;> rfl
      · rfl
    have hval : (Se.step de).accumulator =
        (if Se.dt ≤ r.1 ∧ 8 ≤ r.2.2 then if Se.dt * 8 < r.1 then Se.dt * 8 else r.1 else r.1) := by
      simp only [EMSolver2D.step, EMSolver2D.stepResult, if_pos hde, ← hr]
      split
      · split <;> rfl
      · rfl
    refine ⟨hcnt ▸ hcount, hval ▸ hb, ?_⟩
    rw [hval, hcnt]
    rcases hd with h | h
    · exact Or.inl (h.trans (by rw [hacc]))
    · exact Or.inr h
  · have hcount := runFixedSteps_count_le Sw.dt WaveSolver2D.advance 8 (Sw.accumulator + dw) Sw
    have hacc := runFixedSteps_acc Sw.dt WaveSolver2D.advance 8 (Sw.accumulator + dw) Sw
    have hstop := runFixedSteps_stop_lt Sw.dt WaveSolver2D.advance 8 (Sw.accumulator + dw) Sw
    set r := runFixedSteps Sw.dt WaveSolver2D.advance 8 (Sw.accumulator + dw) Sw with hr
    obtain ⟨hb, hd⟩ := clamp_spec Sw.dt r.1 r.2.2 hdtw hcount hstop
    have hcnt : (Sw.stepResult dw).2 = r.2.2 := by
      simp only [WaveSolver2D.stepResult, if_pos hdw, ← hr]
      split
      · split <;> rfl
      · rfl
    have hval : (Sw.step dw).accumulator =
        (if Sw.dt ≤ r.1 ∧ 8 ≤ r.2.2 then if Sw.dt * 8 < r.1 then Sw.dt * 8 else r.1 else r.1) := by
      simp only [WaveSolver2D.step, WaveSolver2D.stepResult, if_pos hdw, ← hr]
      split
      · split <;> rfl
      · rfl
    refine ⟨hcnt ▸ hcount, hval ▸ hb, ?_⟩
    rw [hval, hcnt]
    rcases hd with h | h
    · exact Or.inl (h.trans (by rw [hacc]))
    · exact Or.inr h

/-- Witness for C7: a concrete call with a large elapsed time on freshly
constructed solvers over `cfgA`. -/
theorem c7_substep_cap_witness :
    (((EMSolver2D.create cfgA).stepResult 100).2 ≤ 8 ∧
      ((EMSolver2D.create cfgA).step 100).accumulator ≤ (EMSolver2D.create cfgA).dt * 8 ∧
      (((EMSolver2D.create cfgA).step 100).accumulator =
          (EMSolver2D.create cfgA).accumulator + 100 -
            ((((EMSolver2D.create cfgA).stepResult 100).2 : ℕ) : ℝ) * (EMSolver2D.create cfgA).dt ∨
        (((EMSolver2D.create cfgA).stepResult 100).2 = 8 ∧
          ((EMSolver2D.create cfgA).step 100).accumulator = (EMSolver2D.create cfgA).dt * 8))) ∧
    (((WaveSolver2D.create cfgA).stepResult 100).2 ≤ 8 ∧
      ((WaveSolver2D.create cfgA).step 100).accumulator ≤ (WaveSolver2D.create cfgA).dt * 8 ∧
      (((WaveSolver2D.create cfgA).step 100).accumulator =
          (WaveSolver2D.create cfgA).accumulator + 100 -
            ((((WaveSolver2D.create cfgA).stepResult 100).2 : ℕ) : ℝ) *
              (WaveSolver2D.create cfgA).dt ∨
        (((WaveSolver2D.create cfgA).stepResult 100).2 = 8 ∧
          ((WaveSolver2D.create cfgA).step 100).accumulator =
            (WaveSolver2D.create cfgA).dt * 8))) :=
  c7_substep_cap (EMSolver2D.create cfgA) (WaveSolver2D.create cfgA) 100 100
    (by norm_num) (by norm_num)
    (em_create_dt_pos cfgA (by norm_num [cfgA]) (by norm_num [cfgA]))
    (wave_create_dt_pos cfgA (by norm_num [cfgA]) (by norm_num [cfgA]))

/-! ### Claim C8 -/

/-- Claim C8: `setBarrierFromShapes` with a non-empty shape list assigns
each covered cell the clamped `(epsR, sigma, metal-bit)` values of the last
shape in list order whose rasterisation test (`shapeCovers`) contains that
cell — in particular a later non-metal shape resets an earlier metal bit —
leaves every uncovered cell at `epsR = 1`, `sigma = 0`, non-metal, and
silently skips shapes with zero or negative radius or size (`shapeCovers`
is false everywhere for such shapes, so they are never a last covering
shape); with an empty list `buildMaterialGrids` builds no map (`none`) and
the solver is restored to uniform free-space defaults with no metal mask. -/
theorem c8_material_last_wins (S : EMSolver2D) (shapes : List ShapeObject) (i : ℕ)
    (r w h a : ℝ) (c : Vec2) (m : Option MaterialSpec)
    (hr : r ≤ 0) (hwh : w ≤ 0 ∨ h ≤ 0) :
    buildMaterialGrids S.domain S.nx S.ny [] = none ∧
    (S.setBarrierFromShapes []).epsRGrid i = 1 ∧
    (S.setBarrierFromShapes []).sigmaGrid i = 0 ∧
    (S.setBarrierFromShapes []).metalMask = none ∧
    ¬ shapeCovers S.domain S.nx S.ny ⟨.circle r, c, m⟩ i ∧
    ¬ shapeCovers S.domain S.nx S.ny ⟨.rectangle w h a, c, m⟩ i ∧
    (S.setBarrierFromShapes shapes).epsRGrid i =
      (match lastCoveringShape S.domain S.nx S.ny shapes i with
       | some s => epsValOf s
       | none => 1) ∧
    (S.setBarrierFromShapes shapes).sigmaGrid i =
      (match lastCoveringShape S.domain S.nx S.ny shapes i with
       | some s => sigValOf s
       | none => 0) ∧
    maskAt (S.setBarrierFromShapes shapes).metalMask i =
      (match lastCoveringShape S.domain S.nx S.ny shapes i with
       | some s => isMetalOf s
       | none => false) := by
  have hcirc : ¬ shapeCovers S.domain S.nx S.ny ⟨.circle r, c, m⟩ i := by
    intro hc
    have h1 : (0 : ℝ) < max 0 r := hc.1
    rw [max_eq_left hr] at h1
    exact lt_irrefl 0 h1
  have hrect : ¬ shapeCovers S.domain S.nx S.ny ⟨.rectangle w h a, c, m⟩ i := by
    intro hc
    obtain ⟨h1, h2, -⟩ := hc
    rcases hwh with hw | hh
    · nlinarith
    · nlinarith
  have hmain : (S.setBarrierFromShapes shapes).epsRGrid i =
      (match lastCoveringShape S.domain S.nx S.ny shapes i with
       | some s => epsValOf s
       | none => 1) ∧
      (S.setBarrierFromShapes shapes).sigmaGrid i =
        (match lastCoveringShape S.domain S.nx S.ny shapes i with
         | some s => sigValOf s
         | none => 0) ∧
      maskAt (S.setBarrierFromShapes shapes).metalMask i =
        (match lastCoveringShape S.domain S.nx S.ny shapes i with
         | some s => isMetalOf s
         | none => false) := by
    cases shapes with
    | nil => exact ⟨rfl, rfl, rfl⟩
    | cons s L =>
      have hspec := applyShape_foldl_spec S.domain S.nx S.ny (s :: L) i
        ⟨fun _ => 1, fun _ => 0, none⟩
      have hbar : S.setBarrierFromShapes (s :: L) =
          { S with
            epsRGrid := ((s :: L).foldl (applyShape S.domain S.nx S.ny)
              ⟨fun _ => 1, fun _ => 0, none⟩).epsR
            sigmaGrid := ((s :: L).foldl (applyShape S.domain S.nx S.ny)
              ⟨fun _ => 1, fun _ => 0, none⟩).sigma
            metalMask := ((s :: L).foldl (applyShape S.domain S.nx S.ny)
              ⟨fun _ => 1, fun _ => 0, none⟩).metalMask } := rfl
      rw [hbar]
      exact hspec
  exact ⟨rfl, rfl, rfl, rfl, hcirc, hrect, hmain.1, hmain.2.1, hmain.2.2⟩

/-- Witness for C8 on the 6×6 solver with the single metal circle: cell 28
(grid point (4,4)) is not covered, so it keeps free-space defaults, and the
degenerate shapes (radius 0, width -1) cover nothing. -/
theorem c8_material_last_wins_witness :
    buildMaterialGrids (EMSolver2D.create cfgB).domain (EMSolver2D.create cfgB).nx
      (EMSolver2D.create cfgB).ny [] = none ∧
    ((EMSolver2D.create cfgB).setBarrierFromShapes []).epsRGrid 28 = 1 ∧
    ((EMSolver2D.create cfgB).setBarrierFromShapes []).sigmaGrid 28 = 0 ∧
    ((EMSolver2D.create cfgB).setBarrierFromShapes []).metalMask = none ∧
    ¬ shapeCovers (EMSolver2D.create cfgB).domain (EMSolver2D.create cfgB).nx
      (EMSolver2D.create cfgB).ny ⟨.circle 0, ⟨0, 0⟩, none⟩ 28 ∧
    ¬ shapeCovers (EMSolver2D.create cfgB).domain (EMSolver2D.create cfgB).nx
      (EMSolver2D.create cfgB).ny ⟨.rectangle (-1) 1 0, ⟨0, 0⟩, none⟩ 28 ∧
    ((EMSolver2D.create cfgB).setBarrierFromShapes [metalCircle]).epsRGrid 28 =
      (match lastCoveringShape (EMSolver2D.create cfgB).domain (EMSolver2D.create cfgB).nx
          (EMSolver2D.create cfgB).ny [metalCircle] 28 with
       | some s => epsValOf s
       | none => 1) ∧
    ((EMSolver2D.create cfgB).setBarrierFromShapes [metalCircle]).sigmaGrid 28 =
      (match lastCoveringShape (EMSolver2D.create cfgB).domain (EMSolver2D.create cfgB).nx
          (EMSolver2D.create cfgB).ny [metalCircle] 28 with
       | some s => sigValOf s
       | none => 0) ∧
    maskAt ((EMSolver2D.create cfgB).setBarrierFromShapes [metalCircle]).metalMask 28 =
      (match lastCoveringShape (EMSolver2D.create cfgB).domain (EMSolver2D.create cfgB).nx
          (EMSolver2D.create cfgB).ny [metalCircle] 28 with
       | some s => isMetalOf s
       | none => false) :=
  c8_material_last_wins (EMSolver2D.create cfgB) [metalCircle] 28 0 (-1) 1 0 ⟨0, 0⟩ none
    (le_refl 0) (Or.inl (by norm_num))

/-! ### Claim C9 -/

/-- Claim C9: `step(elapsedSeconds)` with a non-positive argument is a
no-op: the returned state is identical (all field arrays, the accumulator,
the simulated time and the statistics unchanged), for both solver classes.
Non-finite arguments (NaN/Infinity) are outside the real-number model; over
`ℝ` the guard `!Number.isFinite(d) || d <= 0` reduces to `d ≤ 0`. -/
theorem c9_step_noop (Se : EMSolver2D) (Sw : WaveSolver2D) (de dw : ℝ)
    (hde : de ≤ 0) (hdw : dw ≤ 0) :
    Se.step de = Se ∧ Sw.step dw = Sw := by
  constructor
  · simp [EMSolver2D.step, EMSolver2D.stepResult, not_lt.mpr hde]
  · simp [WaveSolver2D.step, WaveSolver2D.stepResult, not_lt.mpr hdw]

/-- Witness for C9: concrete no-op calls with elapsed times `0` and `-1`. -/
theorem c9_step_noop_witness :
    (EMSolver2D.create cfgA).step 0 = EMSolver2D.create cfgA ∧
    (WaveSolver2D.create cfgA).step (-1) = WaveSolver2D.create cfgA :=
  c9_step_noop (EMSolver2D.create cfgA) (WaveSolver2D.create cfgA) 0 (-1)
    (by norm_num) (by norm_num)

/-! ### Claim C10 -/

/-- Claim C10: `reset()` zeroes all field arrays, the output arrays, the
clock, the accumulator and the statistics; it is idempotent; after any state
whatsoever it restores exactly the field/clock/accumulator/statistics state
of a freshly constructed instance; and it preserves the material map and the
source list (no rebuilding).  Both solver classes. -/
theorem c10_reset_contract (Se : EMSolver2D) (Sw : WaveSolver2D) (cfg : SolverConfig) :
    Se.reset.reset = Se.reset ∧
    Sw.reset.reset = Sw.reset ∧
    Se.reset.ex = (EMSolver2D.create cfg).ex ∧
    Se.reset.ey = (EMSolver2D.create cfg).ey ∧
    Se.reset.hz = (EMSolver2D.create cfg).hz ∧
    Se.reset.instantaneous = (EMSolver2D.create cfg).instantaneous ∧
    Se.reset.avgPower = (EMSolver2D.create cfg).avgPower ∧
    Se.reset.avgMagnitude = (EMSolver2D.create cfg).avgMagnitude ∧
    Se.reset.time = (EMSolver2D.create cfg).time ∧
    Se.reset.accumulator = (EMSolver2D.create cfg).accumulator ∧
    Se.reset.stats = (EMSolver2D.create cfg).stats ∧
    Se.reset.epsRGrid = Se.epsRGrid ∧
    Se.reset.sigmaGrid = Se.sigmaGrid ∧
    Se.reset.metalMask = Se.metalMask ∧
    Se.reset.sources = Se.sources ∧
    Sw.reset.prev = (WaveSolver2D.create cfg).prev ∧
    Sw.reset.curr = (WaveSolver2D.create cfg).curr ∧
    Sw.reset.next = (WaveSolver2D.create cfg).next ∧
    Sw.reset.instantaneous = (WaveSolver2D.create cfg).instantaneous ∧
    Sw.reset.avgPower = (WaveSolver2D.create cfg).avgPower ∧
    Sw.reset.avgMagnitude = (WaveSolver2D.create cfg).avgMagnitude ∧
    Sw.reset.time = (WaveSolver2D.create cfg).time ∧
    Sw.reset.accumulator = (WaveSolver2D.create cfg).accumulator ∧
    Sw.reset.stats = (WaveSolver2D.create cfg).stats ∧
    Sw.reset.barrierMask = Sw.barrierMask ∧
    Sw.reset.sources = Sw.sources := by
  and_intros <;> rfl

end

end WifiWave

